import Mathlib

/-!
# actf web front end: worker.js and avis.js

A shallow embedding of the two scripts of the trace viewer:

* `worker.js`: the background worker that relays query messages to the
  trace engine (a native module reached through `Module.cwrap`) and posts a
  reply for each request;
* `avis.js`: the page script that owns the widgets, posts requests to the
  worker and reacts to its replies.

JavaScript values are embedded as follows.  A property that may be
`undefined` is an `Option`; a number is the rational that a finite double
denotes, and a subtraction whose value is used rounds to the nearest double;
an exception is an explicit `threw` component of the outcome of a handler.
-/

namespace Actf

/-! ## Messages -/

/-- The message kinds of the table `ACTION` (defined in `action.js`); `other`
stands for any value that is none of the five constants. -/
inductive ACTION where
  | GET_TRACE_INFO
  | GET_EVENT_TYPES
  | GET_CALLSTACK_STATS
  | GET_FLAMEGRAPH
  | WRITE_FILES
  | other
  deriving DecidableEq, Repr

/-- A string-valued property of a message; `none` is `undefined`. -/
abbrev JSStr := Option String

/-- The text a template literal inserts for a string-valued property. -/
def tmpl : JSStr → String
  | some s => s
  | none => "undefined"

/-- One entry of the `files` array of a `WRITE_FILES` message. -/
structure StagedFile where
  file : String
  data : List Nat
  deriving DecidableEq, Repr

/-- A request, as read by the worker from `e.data`. -/
structure Request where
  action : ACTION
  dir : JSStr := none
  entry_regex : JSStr := none
  exit_regex : JSStr := none
  entry_track : JSStr := none
  exit_track : JSStr := none
  entry_label : JSStr := none
  exit_label : JSStr := none
  files : Option (List StagedFile) := none
  deriving DecidableEq, Repr

/-- A reply posted by the worker; `ρ` is the type of parsed results. -/
structure Reply (ρ : Type) where
  action : ACTION
  rc : Option Int := none
  err : Option String := none
  dir : JSStr := none
  res : Option ρ := none
  dur : Option ℚ := none

/-- The exceptions a handler can end with. -/
inductive JSError where
  | ReferenceError
  | TypeError
  | SyntaxError
  | FSError
  deriving DecidableEq, Repr

/-! ## Double-precision numbers -/

/-- Rounding of a rational to the nearest integer, a tie going to the even
one. -/
def roundHalfEven (y : ℚ) : ℤ :=
  if y - ⌊y⌋ < 1 / 2 then ⌊y⌋
  else if 1 / 2 < y - ⌊y⌋ then ⌊y⌋ + 1
  else if ⌊y⌋ % 2 = 0 then ⌊y⌋
  else ⌊y⌋ + 1

/-- The exponent of the spacing of the doubles around `x`: 52 below the
binary exponent of `x`, which counts as at least `-1022` (the subnormal
range). -/
def ulpExponent (x : ℚ) : ℤ :=
  max (Int.log 2 |x|) (-1022) - 52

/-- The double nearest to `x` (round to nearest, ties to even), for `x` whose
nearest double is finite. -/
def roundToDouble (x : ℚ) : ℚ :=
  roundHalfEven (x / 2 ^ ulpExponent x) * 2 ^ ulpExponent x

/-- The operator `-` on two finite doubles. -/
def doubleSub (x y : ℚ) : ℚ :=
  roundToDouble (x - y)

/-! ## worker.js -/

/-- A call of an engine entry point: the wrapped function and its arguments
in call order. -/
structure EngineCall where
  fn : String
  args : List JSStr
  deriving DecidableEq, Repr

/-- What `worker.js` takes from the scripts it imports and from the platform:
the four wrapped engine entry points (each reads the staged files `σ` and
returns a JSON text, or nothing), `JSON.parse` (`none` when it throws), the
two file-system calls of `Module.FS` (`none` when they throw), and the binding
of the free identifier `dir` in the worker's global scope, if there is one. -/
structure Host (σ ρ : Type) where
  get_trace_info : σ → List JSStr → Option String
  get_callstack_stats : σ → List JSStr → Option String
  get_flamegraph : σ → List JSStr → Option String
  get_event_types : σ → List JSStr → Option String
  JSON_parse : String → Option ρ
  FS_mkdir : σ → JSStr → Option σ
  FS_writeFile : σ → String → List Nat → Option σ
  globalDir : Option JSStr

/-- The outcome of one run of the worker's handler: the file system it
leaves, the engine calls it made, the files it wrote with `Module.FS.writeFile`,
the replies it posted (each list oldest first) and the exception it ended
with, if any. -/
structure Outcome (σ ρ : Type) where
  fs : σ
  calls : List EngineCall := []
  written : List StagedFile := []
  posted : List (Reply ρ) := []
  threw : Option JSError := none

/-- The test `! jsonRes`: `null` and the empty string are falsy. -/
def falsy : Option String → Bool
  | none => true
  | some s => s == ""

/-- The state of the loop over `e.data.files`: the file system, the files
written so far, and whether a write has thrown. -/
structure WriteRun (σ : Type) where
  fs : σ
  written : List StagedFile
  threw : Bool

/-- The loop `for (const f of e.data.files) Module.FS.writeFile(f.file, ...)`,
which stops at the first write that throws. -/
def writeFiles {σ : Type} (writeFile : σ → String → List Nat → Option σ) :
    σ → List StagedFile → List StagedFile → WriteRun σ
  | fs, done, [] => { fs := fs, written := done, threw := false }
  | fs, done, f :: rest =>
    match writeFile fs f.file f.data with
    | none => { fs := fs, written := done, threw := true }
    | some fs1 => writeFiles writeFile fs1 (done ++ [f]) rest

/-- The tail shared by the success paths: parse the text and post the reply
built from the parsed value. -/
def parseAndPost {σ ρ : Type} (H : Host σ ρ) (fs : σ) (call : EngineCall)
    (jsonRes : Option String) (mk : ρ → Reply ρ) : Outcome σ ρ :=
  match H.JSON_parse (jsonRes.getD "") with
  | none => { fs := fs, calls := [call], threw := some .SyntaxError }
  | some res => { fs := fs, calls := [call], posted := [mk res] }

/-- The handler `onmessage` of `worker.js`.  `t0` and `t1` are the two
readings of `performance.now()`.  The calls of `console.log` and of `_free`
leave no trace in the outcome. -/
def onmessage {σ ρ : Type} (H : Host σ ρ) (fs : σ) (t0 t1 : ℚ) (m : Request) :
    Outcome σ ρ :=
  match m.action with
  | .GET_TRACE_INFO =>
    let args := [m.dir]
    let call : EngineCall := { fn := "get_trace_info", args := args }
    let jsonRes := H.get_trace_info fs args
    if falsy jsonRes then
      { fs := fs, calls := [call],
        posted := [{ action := .GET_TRACE_INFO, rc := some (-1),
                     err := some ("Failed to read " ++ tmpl m.dir ++ " as a CTF2 trace") }] }
    else
      parseAndPost H fs call jsonRes fun res =>
        { action := .GET_TRACE_INFO, rc := some 0, dir := m.dir, res := some res }
  | .GET_CALLSTACK_STATS =>
    let args := [m.dir, m.entry_regex, some "cmp", m.exit_regex, some "cmp",
                 m.entry_track, m.exit_track, m.entry_label, m.exit_label]
    let call : EngineCall := { fn := "get_callstack_stats", args := args }
    let jsonRes := H.get_callstack_stats fs args
    if falsy jsonRes then
      match H.globalDir with
      | none => { fs := fs, calls := [call], threw := some .ReferenceError }
      | some dir =>
        { fs := fs, calls := [call],
          posted := [{ action := .GET_CALLSTACK_STATS, rc := some (-1),
                       err := some ("callstack stats failed on " ++ tmpl dir) }] }
    else
      parseAndPost H fs call jsonRes fun res =>
        { action := .GET_CALLSTACK_STATS, rc := some 0, res := some res, dur := some (doubleSub t1 t0) }
  | .GET_FLAMEGRAPH =>
    let args := [m.dir, m.entry_regex, some "cmp", m.exit_regex, some "cmp",
                 m.entry_track, m.exit_track, m.entry_label, m.exit_label]
    let call : EngineCall := { fn := "get_flamegraph", args := args }
    let jsonRes := H.get_flamegraph fs args
    if falsy jsonRes then
      { fs := fs, calls := [call],
        posted := [{ action := .GET_FLAMEGRAPH, rc := some (-1),
                     err := some ("get_flamegraph failed on " ++ tmpl m.dir) }] }
    else
      parseAndPost H fs call jsonRes fun res =>
        { action := .GET_FLAMEGRAPH, rc := some 0, res := some res, dur := some (doubleSub t1 t0) }
  | .WRITE_FILES =>
    let fs1 := (H.FS_mkdir fs m.dir).getD fs
    match m.files with
    | none => { fs := fs1, threw := some .TypeError }
    | some files =>
      let run := writeFiles H.FS_writeFile fs1 [] files
      if run.threw then
        { fs := run.fs, written := run.written, threw := some .FSError }
      else
        { fs := run.fs, written := run.written,
          posted := [{ action := .WRITE_FILES, rc := some 0, dir := m.dir }] }
  | .GET_EVENT_TYPES =>
    let args := [m.dir]
    let call : EngineCall := { fn := "get_event_types", args := args }
    let jsonRes := H.get_event_types fs args
    if falsy jsonRes then
      { fs := fs, calls := [call],
        posted := [{ action := .GET_EVENT_TYPES, rc := some (-1),
                     err := some ("get_flamegraph failed on " ++ tmpl m.dir) }] }
    else
      parseAndPost H fs call jsonRes fun res =>
        { action := .GET_EVENT_TYPES, rc := some 0, res := some res, dur := some (doubleSub t1 t0) }
  | .other => { fs := fs }

/-! ## Results exchanged with the page -/

/-- A cell of a statistics row: a JSON scalar. -/
inductive Cell where
  | null
  | num (q : ℚ)
  | str (s : String)
  deriving DecidableEq, Repr

/-- The result of the callstack-statistics query: `{hdrs, rows}`. -/
structure StatsData where
  hdrs : List String
  rows : List (List Cell)
  deriving DecidableEq, Repr

/-- One entry of `events` in the trace-info result. -/
structure EventInfo where
  name : String
  value_fields : List String
  deriving DecidableEq, Repr

/-- The attribute record under the key `trace-info`. -/
inductive Attr where
  | null
  | scalar (text : String)
  | object (entries : List (String × Attr))

/-- The result of the trace-info query. -/
structure TraceInfo where
  trace_info : Attr
  events : List EventInfo

/-- One row of the event-types result. -/
structure EventCount where
  event_name : String
  count : ℚ
  deriving DecidableEq, Repr

/-- A frame of the flamegraph result. -/
inductive Frame where
  | mk (name : String) (value : ℚ) (children : List Frame)

/-- A parsed engine result, by shape. -/
inductive Res where
  | traceInfo (t : TraceInfo)
  | stats (d : StatsData)
  | eventTypes (rows : List EventCount)
  | flamegraph (root : Frame)

/-! ## avis.js: widgets -/

/-- An `option` element. -/
structure OptionNode where
  value : String
  innerHTML : String
  selected : Bool := false
  deriving DecidableEq, Repr

/-- A child node of a `select` element: an `option` element, or a node that
is not an element, such as the text node that white space in the markup
leaves, or a comment. -/
inductive ChildNode where
  | opt (o : OptionNode)
  | text (data : String)
  deriving DecidableEq, Repr

/-- The option element behind a child node, if it is one. -/
def ChildNode.asOption : ChildNode → Option OptionNode
  | .opt o => some o
  | .text _ => none

/-- The property `ch.value` of a child node; a text node has none. -/
def ChildNode.value : ChildNode → Option String
  | .opt o => some o.value
  | .text _ => none

/-- The selectedness of a child node; only an option can be selected. -/
def ChildNode.isSelected : ChildNode → Bool
  | .opt o => o.selected
  | .text _ => false

/-- The assignment `ch.selected = b` on one node.  On a text node it only
creates a property of that name, which the drop-down does not read. -/
def ChildNode.setSelected (b : Bool) : ChildNode → ChildNode
  | .opt o => .opt { o with selected := b }
  | .text data => .text data

/-- A `select` element (a drop-down with one selection): its `disabled` flag
and its child nodes, as the property `childNodes` lists them. -/
structure Select where
  disabled : Bool
  childNodes : List ChildNode
  deriving DecidableEq, Repr

/-- The option elements of a selector, in document order. -/
def Select.options (s : Select) : List OptionNode :=
  s.childNodes.filterMap ChildNode.asOption

/-- The getter `select.value`: the value of the first selected option, the
empty string when there is none. -/
def Select.value (s : Select) : String :=
  match s.options.find? (fun o => o.selected) with
  | some o => o.value
  | none => ""

/-- Select the first option element of a list of child nodes. -/
def selectFirstOption : List ChildNode → List ChildNode
  | [] => []
  | .opt o :: rest => .opt { o with selected := true } :: rest
  | .text data :: rest => .text data :: selectFirstOption rest

/-- The browser's reset of a drop-down: when no option is selected the first
option becomes selected. -/
def resetSelectedness (l : List ChildNode) : List ChildNode :=
  if l.any ChildNode.isSelected then l else selectFirstOption l

/-- The setter `childNodes[i].selected = b` inside a drop-down.  On an option,
selecting it deselects the other options and deselecting it is followed by
the reset; on a text node nothing the drop-down reads is changed. -/
def setSelectedAt (l : List ChildNode) (i : Nat) (b : Bool) : List ChildNode :=
  match l.get? i with
  | some (.opt _) =>
    if b then
      l.enum.map fun (j, c) => c.setSelected (decide (j = i))
    else
      resetSelectedness (l.enum.map fun (j, c) => if j = i then c.setSelected false else c)
  | _ => l

/-- A call of `selector.appendChild(opt)` with an option element. -/
def Select.appendChild (s : Select) (opt : OptionNode) : Select :=
  { s with childNodes := resetSelectedness (s.childNodes ++ [.opt opt]) }

/-- The loop `childNodes.forEach(ch => ch.selected = (ch.value === v))`. -/
def selectByValue (s : Select) (v : String) : Select :=
  let visit (l : List ChildNode) (i : Nat) : List ChildNode :=
    setSelectedAt l i (decide ((l.map ChildNode.value).get? i = some (some v)))
  { s with childNodes := (List.range s.childNodes.length).foldl visit s.childNodes }

/-- The names of the six selectors of the callstack parameters. -/
inductive SelectId where
  | entry
  | exit
  | entryTrack
  | exitTrack
  | entryLabel
  | exitLabel
  deriving DecidableEq, Repr, Fintype

/-- The three loading indicators. -/
inductive LoadingImg where
  | eventTypes
  | callstackStats
  | flamegraph
  deriving DecidableEq, Repr

/-- The content of a rendered table cell: a text, or a number. -/
inductive CellText where
  | text (s : String)
  | number (q : ℚ)
  deriving DecidableEq, Repr

/-- A rendered body cell: a row header (`th`) or a data cell (`td`). -/
structure TableCell where
  isTh : Bool
  content : CellText
  deriving DecidableEq, Repr

/-- A rendered statistics table. -/
structure Table where
  head : List String
  body : List (List TableCell)
  deriving DecidableEq, Repr

/-- The bar chart built by `updateChart`. -/
structure Chart where
  labels : List String
  data : List ℚ
  destroyed : Bool := false
  deriving DecidableEq, Repr

/-- A file of the directory input. -/
structure InputFile where
  webkitRelativePath : String
  data : List Nat
  deriving DecidableEq, Repr

/-- A call of `dumpFilesToFS` waiting for its file readers. -/
structure PendingDump where
  dir : String
  files : List InputFile
  deriving DecidableEq, Repr

/-- The state of the page: the script's variables, the properties of the
widgets it touches, the timers it has set, the file reads it awaits and the
messages it has posted to the worker (oldest first). -/
structure Page where
  isExampleLoaded : Bool
  eventChart : Option Chart
  traceInfo : Option Res
  dirInputFiles : List InputFile
  callstackParamsOpacity : ℚ
  traceInfoStatus : String
  traceInfoAttributes : List Attr
  eventChartDisplay : String
  runEventTypesDisabled : Bool
  runEventTypesErr : String
  runCallstackStatsDisabled : Bool
  runCallstackStatsErr : String
  runFlamegraphDisabled : Bool
  runFlamegraphErr : String
  entrySelect : Select
  exitSelect : Select
  entryTrackSelect : Select
  exitTrackSelect : Select
  entryLabelSelect : Select
  exitLabelSelect : Select
  callstackStatsContainer : List Table
  flamegraphContainer : List (Option Res)
  loadingVisible : LoadingImg → Bool
  timers : List (LoadingImg × ℚ)
  pendingDumps : List PendingDump
  posted : List Request

/-- The element `document.getElementById(id)` for a selector id. -/
def Page.select (p : Page) : SelectId → Select
  | .entry => p.entrySelect
  | .exit => p.exitSelect
  | .entryTrack => p.entryTrackSelect
  | .exitTrack => p.exitTrackSelect
  | .entryLabel => p.entryLabelSelect
  | .exitLabel => p.exitLabelSelect

/-- Store a selector back into the page. -/
def Page.setSelect (p : Page) (id : SelectId) (s : Select) : Page :=
  match id with
  | .entry => { p with entrySelect := s }
  | .exit => { p with exitSelect := s }
  | .entryTrack => { p with entryTrackSelect := s }
  | .exitTrack => { p with exitTrackSelect := s }
  | .entryLabel => { p with entryLabelSelect := s }
  | .exitLabel => { p with exitLabelSelect := s }

/-- The outcome of a page handler: the page it leaves and the exception it
ended with, if any. -/
structure Ran where
  page : Page
  threw : Option JSError := none

/-- Run `g` after `f` unless `f` threw. -/
def Ran.andThen (r : Ran) (g : Page → Ran) : Ran :=
  match r.threw with
  | none => g r.page
  | some _ => r

/-! ## avis.js: functions -/

/-- The constant `exampleTrace`. -/
def exampleTrace : String := "example"

/-- A call of `selector.removeChild(selector.lastChild)`. -/
def removeLastChild (l : List ChildNode) : List ChildNode :=
  resetSelectedness l.dropLast

/-- The loop of `resetSelector`:
`while (selector.childNodes.length > 1) selector.removeChild(selector.lastChild)`. -/
def resetLoop (l : List ChildNode) : List ChildNode :=
  if 1 < l.length then resetLoop (removeLastChild l) else l
termination_by l.length
decreasing_by
  have first : ∀ k : List ChildNode, (selectFirstOption k).length = k.length := by
    intro k
    induction k with
    | nil => rfl
    | cons c rest ih =>
      cases c with
      | opt o => rfl
      | text data => simp [selectFirstOption, ih]
  have key : ∀ k : List ChildNode, (resetSelectedness k).length = k.length := by
    intro k
    unfold resetSelectedness
    split
    · rfl
    · exact first k
  have h : (removeLastChild l).length = l.length - 1 := by
    rw [removeLastChild, key, List.length_dropLast]
  omega

/-- The function `resetSelector`, applied to the selector `id`.  The loop
keeps the first child node, whatever it is; the assignment
`childNodes[0].selected = true` throws when no child is left. -/
def resetSelector (id : SelectId) (p : Page) : Ran :=
  let s := p.select id
  let l := resetLoop s.childNodes
  match l with
  | [] => { page := p.setSelect id { s with childNodes := l }, threw := some .TypeError }
  | _ => { page := p.setSelect id { s with childNodes := setSelectedAt l 0 true } }

/-- The two statements `sel.disabled = true; resetSelector(sel)`. -/
def disableAndReset (id : SelectId) (p : Page) : Ran :=
  resetSelector id (p.setSelect id { p.select id with disabled := true })

/-- The function `onNewTraceLoadedPre`. -/
def onNewTraceLoadedPre (p : Page) : Ran :=
  let p1 : Page :=
    { p with
      traceInfoStatus := ""
      traceInfoAttributes := []
      traceInfo := none
      eventChartDisplay := "none"
      runEventTypesDisabled := true
      runEventTypesErr := ""
      runCallstackStatsDisabled := true
      runCallstackStatsErr := ""
      runFlamegraphDisabled := true
      runFlamegraphErr := ""
      callstackParamsOpacity := 6 / 10 }
  (disableAndReset .entry p1).andThen fun p2 =>
  (disableAndReset .exit p2).andThen fun p3 =>
  (disableAndReset .entryTrack p3).andThen fun p4 =>
  (disableAndReset .exitTrack p4).andThen fun p5 =>
  (disableAndReset .entryLabel p5).andThen fun p6 =>
  (disableAndReset .exitLabel p6).andThen fun p7 =>
    { page :=
        { p7 with
          eventChart := none
          callstackStatsContainer := []
          flamegraphContainer := [] } }

/-- The function `onNewTraceLoadedPost`. -/
def onNewTraceLoadedPost (p : Page) : Page :=
  { p with runEventTypesDisabled := false, callstackParamsOpacity := 1 }

/-- The operator `a && b` on strings: `a` when it is falsy (empty), else `b`. -/
def jsAnd (a b : String) : String :=
  if a = "" then a else b

/-- The function `updateCallstackButtons`. -/
def updateCallstackButtons (p : Page) : Page :=
  let enabled :=
    jsAnd (jsAnd (jsAnd (jsAnd (jsAnd p.entrySelect.value p.exitSelect.value)
      p.entryTrackSelect.value) p.exitTrackSelect.value) p.entryLabelSelect.value)
      p.exitLabelSelect.value
  { p with
    runCallstackStatsDisabled := decide (enabled = "")
    runFlamegraphDisabled := decide (enabled = "") }

/-- The body of the loop of `updateFieldOptions`: one option for `field` goes
to the track selector and a copy of it to the label selector. -/
def addFieldOption (trackSelectId labelSelectId : SelectId) (p : Page) (field : String) : Page :=
  let opt : OptionNode := { value := field, innerHTML := field }
  let p1 := p.setSelect trackSelectId ((p.select trackSelectId).appendChild opt)
  p1.setSelect labelSelectId ((p1.select labelSelectId).appendChild opt)

/-- The function `updateFieldOptions`.  Reading `traceInfo.events` throws
when `traceInfo` is `null`, and calling `find` on it throws when the stored
result has no `events`. -/
def updateFieldOptions (eventName : String) (trackSelectId labelSelectId : SelectId)
    (p : Page) : Ran :=
  match p.traceInfo with
  | some (.traceInfo t) =>
    match t.events.find? (fun ev => ev.name == eventName) with
    | none => { page := p }
    | some event =>
      (resetSelector trackSelectId p).andThen fun p1 =>
      (resetSelector labelSelectId p1).andThen fun p2 =>
        let p3 := event.value_fields.foldl (addFieldOption trackSelectId labelSelectId) p2
        let p4 := p3.setSelect trackSelectId { p3.select trackSelectId with disabled := false }
        { page := p4.setSelect labelSelectId { p4.select labelSelectId with disabled := false } }
  | _ => { page := p, threw := some .TypeError }

/-- The function `updateEntryFieldOptions`. -/
def updateEntryFieldOptions (value : String) (p : Page) : Ran :=
  (updateFieldOptions value .entryTrack .entryLabel p).andThen fun p1 =>
    { page := updateCallstackButtons p1 }

/-- The function `updateExitFieldOptions`. -/
def updateExitFieldOptions (value : String) (p : Page) : Ran :=
  (updateFieldOptions value .exitTrack .exitLabel p).andThen fun p1 =>
    { page := updateCallstackButtons p1 }

/-- The function `updateTraceInfo`; the definition list it appends is
represented by the attribute record it renders.  `Object.entries` throws on
`undefined` (`none`) and on `null`. -/
def updateTraceInfo (data : Option Attr) (dir : JSStr) (p : Page) : Ran :=
  let p1 := { p with
    traceInfoStatus := "Trace loaded successfully from directory " ++ tmpl dir }
  match data with
  | none => { page := p1, threw := some .TypeError }
  | some .null => { page := p1, threw := some .TypeError }
  | some a => { page := { p1 with traceInfoAttributes := p1.traceInfoAttributes ++ [a] } }

/-- The body of the first loop of `updateEventOptions`. -/
def addEventOption (p : Page) (event : EventInfo) : Page :=
  let opt : OptionNode := { value := event.name, innerHTML := event.name }
  { p with
    entrySelect := p.entrySelect.appendChild opt
    exitSelect := p.exitSelect.appendChild opt }

/-- The function `updateEventOptions`. -/
def updateEventOptions (events : List EventInfo) (p : Page) : Ran :=
  let p1 := events.foldl addEventOption p
  let p2 : Page :=
    { p1 with
      entrySelect := { p1.entrySelect with disabled := false }
      exitSelect := { p1.exitSelect with disabled := false } }
  if p2.isExampleLoaded then
    let p3 := { p2 with entrySelect := selectByValue p2.entrySelect "func_entry" }
    (updateEntryFieldOptions "func_entry" p3).andThen fun p4 =>
    let p5 := { p4 with exitSelect := selectByValue p4.exitSelect "func_exit" }
    (updateExitFieldOptions "func_exit" p5).andThen fun p6 =>
    let p7 : Page :=
      { p6 with
        entryTrackSelect := selectByValue p6.entryTrackSelect "/common-context/tid"
        entryLabelSelect := selectByValue p6.entryLabelSelect "/payload/addr"
        exitTrackSelect := selectByValue p6.exitTrackSelect "/common-context/tid"
        exitLabelSelect := selectByValue p6.exitLabelSelect "/payload/addr" }
    { page := updateCallstackButtons p7 }
  else
    { page := p2 }

/-- The function `runTraceInfo`: post the trace-info request for `dir`. -/
def runTraceInfo (dir : JSStr) (p : Page) : Page :=
  { p with posted := p.posted ++ [{ action := .GET_TRACE_INFO, dir := dir }] }

/-- The function `updateChart`.  The old chart is destroyed first; reading
`data.map` throws when the result is not a list of rows. -/
def updateChart (data : Option Res) (p : Page) : Ran :=
  let p1 := { p with eventChart := p.eventChart.map fun c => { c with destroyed := true } }
  match data with
  | some (.eventTypes rows) =>
    { page :=
        { p1 with
          eventChart := some { labels := rows.map fun r => r.event_name,
                               data := rows.map fun r => r.count }
          eventChartDisplay := "" } }
  | _ => { page := p1, threw := some .TypeError }

/-! ### The statistics table -/

/-- A JavaScript number that is finite or `NaN` (`none`). -/
abbrev JSNum := Option ℚ

/-- The conversion of an array element to a number for the operator `-`:
`undefined` (an index past the end) is `NaN`, `null` is `0`, a string goes
through the platform's string-to-number conversion `strToNum`. -/
def toNumber (strToNum : String → JSNum) : Option Cell → JSNum
  | none => none
  | some .null => some 0
  | some (.num q) => some q
  | some (.str s) => strToNum s

/-- The operator `-` on numbers, as far as the sort reads it: the exact
difference, which has the sign of the rounded difference of two doubles. -/
def jsSub : JSNum → JSNum → JSNum
  | some x, some y => some (x - y)
  | _, _ => none

/-- The comparator handed to `sort`: `(a, b) => b[4] - a[4]`. -/
def compareRows (strToNum : String → JSNum) (a b : List Cell) : JSNum :=
  jsSub (toNumber strToNum (b.get? 4)) (toNumber strToNum (a.get? 4))

/-- The order a comparator induces for `Array.prototype.sort`: `x` may stay
before `y` unless the comparator's value is positive (`NaN` counts as `0`). -/
def staysBefore {α : Type} (cmp : α → α → JSNum) (x y : α) : Prop :=
  match cmp x y with
  | none => True
  | some v => v ≤ 0

instance {α : Type} (cmp : α → α → JSNum) : DecidableRel (staysBefore cmp) := fun x y => by
  unfold staysBefore
  cases cmp x y <;> infer_instance

/-- The method `Array.prototype.sort(cmp)`.  The sort is stable, so for a
comparator that is a consistent ordering its result is the one of a stable
insertion sort; for other comparators the language leaves the order to the
implementation and this definition fixes one. -/
def Array_sort {α : Type} (cmp : α → α → JSNum) (l : List α) : List α :=
  l.insertionSort (staysBefore cmp)

/-- The method `Array.prototype.indexOf` on an array of strings. -/
def indexOf (l : List String) (x : String) : Int :=
  if x ∈ l then (l.indexOf x : Int) else -1

/-- The array `data.rows` after the sorting step of
`updateCallstackStatsTable`. -/
def sortedRows (strToNum : String → JSNum) (data : StatsData) : List (List Cell) :=
  let totalIdx := indexOf data.hdrs "total"
  if totalIdx ≥ 0 then Array_sort (compareRows strToNum) data.rows else data.rows

/-- The constant `Number.EPSILON`. -/
def EPSILON : ℚ := 1 / 2 ^ 52

/-- The function `Math.round`. -/
def Math_round (x : ℚ) : ℚ := ⌊x + 1 / 2⌋

/-- The text node created for a cell. -/
def cellText : Cell → CellText
  | .null => .text ""
  | .num q => .number (Math_round ((q + EPSILON) * 100) / 100)
  | .str s => .text s

/-- The table row built from one data row: the first cell is a row header. -/
def renderRow (datarow : List Cell) : List TableCell :=
  datarow.enum.map fun (i, c) => { isTh := decide (i = 0), content := cellText c }

/-- The function `updateCallstackStatsTable`.  Iterating `data.hdrs` throws
when the result is not a statistics record, before the page is touched. -/
def updateCallstackStatsTable (strToNum : String → JSNum) (data : Option Res) (p : Page) : Ran :=
  match data with
  | some (.stats d) =>
    let tbl : Table := { head := d.hdrs, body := (sortedRows strToNum d).map renderRow }
    { page := { p with callstackStatsContainer := p.callstackStatsContainer ++ [tbl] } }
  | _ => { page := p, threw := some .TypeError }

/-- The function `updateFlamegraph`: the data is handed to the flamegraph
chart bound to the container. -/
def updateFlamegraph (data : Option Res) (p : Page) : Page :=
  { p with flamegraphContainer := p.flamegraphContainer ++ [data] }

/-! ### Directories and staging -/

/-- The method `String.prototype.split` for a one-character separator, on
lists of characters. -/
def split (sep : Char) : List Char → List (List Char)
  | [] => [[]]
  | c :: cs =>
    if c = sep then [] :: split sep cs
    else
      match split sep cs with
      | [] => [[c]]
      | piece :: pieces => (c :: piece) :: pieces

/-- The function `pathToDir`: `path.split("/")[0]`. -/
def pathToDir (path : String) : String :=
  String.mk ((split '/' path.data).headD [])

/-- The function `getInputDir`; the input's `value` is empty exactly when no
file is selected. -/
def getInputDir (p : Page) : Option String :=
  if p.isExampleLoaded then some exampleTrace
  else
    match p.dirInputFiles with
    | [] => none
    | f :: _ => some (pathToDir f.webkitRelativePath)

/-- The function `reader`, once the file has been read. -/
def reader (file : InputFile) : StagedFile :=
  { file := file.webkitRelativePath, data := file.data }

/-- The message `dumpFilesToFS` posts once every reader has resolved. -/
def dumpFilesToFS (dir : String) (fileList : List InputFile) : Request :=
  let fileResults :=
    (fileList.filter fun file =>
      ((split '/' file.webkitRelativePath.data).length : Int) - 1 == 1).map reader
  let files := fileResults.map fun fr => ({ file := fr.file, data := fr.data } : StagedFile)
  { action := .WRITE_FILES, dir := some dir, files := some files }

/-! ### Listeners -/

/-- The listener of the directory input's `change` event, up to its `await`.
The browser has stored the chosen files in the input; reading
`files[0].webkitRelativePath` throws when the list is empty.  The call of
`Module.FS.mkdir` on the page is wrapped in `try`/`catch` and touches nothing
the page reads. -/
def dirInputChange (files : List InputFile) (p : Page) : Ran :=
  let p0 := { p with dirInputFiles := files, isExampleLoaded := false }
  (onNewTraceLoadedPre p0).andThen fun p1 =>
    match files with
    | [] => { page := p1, threw := some .TypeError }
    | f :: _ =>
      let dir := pathToDir f.webkitRelativePath
      { page := { p1 with pendingDumps := p1.pendingDumps ++ [{ dir := dir, files := files }] } }

/-- The listener of the example button. -/
def exampleInputClick (p : Page) : Ran :=
  (onNewTraceLoadedPre { p with isExampleLoaded := true }).andThen fun p1 =>
    { page := runTraceInfo (some exampleTrace) p1 }

/-- Set the visibility of a loading indicator. -/
def setLoading (img : LoadingImg) (v : Bool) (p : Page) : Page :=
  { p with loadingVisible := fun i => if i = img then v else p.loadingVisible i }

/-- Post a message to the worker. -/
def postToWorker (m : Request) (p : Page) : Page :=
  { p with posted := p.posted ++ [m] }

/-- The listener of the run-event-types button. -/
def runEventTypesClick (p : Page) : Page :=
  let p1 := { p with runEventTypesErr := "" }
  match getInputDir p1 with
  | none => { p1 with runEventTypesErr := "No valid input" }
  | some dir =>
    postToWorker { action := .GET_EVENT_TYPES, dir := some dir } (setLoading .eventTypes true p1)

/-- The listener of the run-callstack-stats button. -/
def runCallstackStatsClick (p : Page) : Page :=
  let p1 := { p with runCallstackStatsErr := "", callstackStatsContainer := [] }
  match getInputDir p1 with
  | none => { p1 with runCallstackStatsErr := "No valid input" }
  | some dir =>
    let entry_regex := p1.entrySelect.value
    let entry_track := p1.entryTrackSelect.value
    let entry_label := p1.entryLabelSelect.value
    let exit_regex := p1.exitSelect.value
    let exit_track := p1.exitTrackSelect.value
    let exit_label := p1.exitLabelSelect.value
    postToWorker
      { action := .GET_CALLSTACK_STATS, dir := some dir,
        entry_regex := some entry_regex, exit_regex := some exit_regex,
        entry_track := some entry_track, exit_track := some exit_track,
        entry_label := some entry_label, exit_label := some exit_label }
      (setLoading .callstackStats true p1)

/-- The listener of the run-flamegraph button. -/
def runFlamegraphClick (p : Page) : Page :=
  let p1 := { p with runFlamegraphErr := "", flamegraphContainer := [] }
  match getInputDir p1 with
  | none => { p1 with runFlamegraphErr := "No valid input" }
  | some dir =>
    let entry_regex := p1.entrySelect.value
    let entry_track := p1.entryTrackSelect.value
    let entry_label := p1.entryLabelSelect.value
    let exit_regex := p1.exitSelect.value
    let exit_track := p1.exitTrackSelect.value
    let exit_label := p1.exitLabelSelect.value
    postToWorker
      { action := .GET_FLAMEGRAPH, dir := some dir,
        entry_regex := some entry_regex, exit_regex := some exit_regex,
        entry_track := some entry_track, exit_track := some exit_track,
        entry_label := some entry_label, exit_label := some exit_label }
      (setLoading .flamegraph true p1)

/-- The delay handed to `setTimeout`:
`'dur' in e.data && e.data.dur < 1000 ? 1000 - e.data.dur : 0`. -/
def hideDelay (r : Reply Res) : ℚ :=
  match r.dur with
  | some dur => if dur < 1000 then doubleSub 1000 dur else 0
  | none => 0

/-- The call `setTimeout(() => hide(img), timeout)`. -/
def setTimeout (img : LoadingImg) (timeout : ℚ) (p : Page) : Page :=
  { p with timers := p.timers ++ [(img, timeout)] }

/-- The handler `worker.onmessage` of the page. -/
def worker_onmessage (strToNum : String → JSNum) (r : Reply Res) (p : Page) : Ran :=
  match r.action with
  | .GET_TRACE_INFO =>
    if r.rc = some 0 then
      let p1 := onNewTraceLoadedPost { p with traceInfo := r.res }
      match r.res with
      | none => { page := p1, threw := some .TypeError }
      | some (.traceInfo t) =>
        (updateTraceInfo (some t.trace_info) r.dir p1).andThen (updateEventOptions t.events)
      | some _ => updateTraceInfo none r.dir p1
    else
      { page := { p with traceInfoStatus := tmpl r.err } }
  | .GET_CALLSTACK_STATS =>
    let p1 := setTimeout .callstackStats (hideDelay r) p
    if r.rc = some 0 then updateCallstackStatsTable strToNum r.res p1
    else { page := { p1 with runCallstackStatsErr := tmpl r.err } }
  | .GET_FLAMEGRAPH =>
    let p1 := setTimeout .flamegraph (hideDelay r) p
    if r.rc = some 0 then { page := updateFlamegraph r.res p1 }
    else { page := { p1 with runFlamegraphErr := tmpl r.err } }
  | .WRITE_FILES =>
    if r.rc = some 0 then { page := runTraceInfo r.dir p }
    else { page := p }
  | .GET_EVENT_TYPES =>
    let p1 := setTimeout .eventTypes (hideDelay r) p
    if r.rc = some 0 then updateChart r.res p1
    else { page := { p1 with runEventTypesErr := tmpl r.err } }
  | .other => { page := p }

/-! ### The page as a transition system -/

/-- What can happen to the page: the events its listeners are registered for,
the completion or failure of the file reads of a pending `dumpFilesToFS`, the
firing of a timer, and the user picking option `i` of a selector (the page
markup binds the entry and exit selectors to `updateEntryFieldOptions` and
`updateExitFieldOptions` and the other four to `updateCallstackButtons`). -/
inductive Event where
  | dirChange (files : List InputFile)
  | exampleClick
  | runEventTypes
  | runCallstackStats
  | runFlamegraph
  | message (r : Reply Res)
  | readsDone (k : Nat)
  | readsFailed (k : Nat)
  | timeout (k : Nat)
  | selectChange (id : SelectId) (i : Nat)

/-- The handler bound to the `change` event of a selector. -/
def selectHandler (id : SelectId) (p : Page) : Ran :=
  match id with
  | .entry => updateEntryFieldOptions p.entrySelect.value p
  | .exit => updateExitFieldOptions p.exitSelect.value p
  | _ => { page := updateCallstackButtons p }

/-- One step of the page.  A disabled button or selector receives no event;
an exception ends the handler and keeps what it had done. -/
def step (strToNum : String → JSNum) (p : Page) : Event → Page
  | .dirChange files => (dirInputChange files p).page
  | .exampleClick => (exampleInputClick p).page
  | .runEventTypes => if p.runEventTypesDisabled then p else runEventTypesClick p
  | .runCallstackStats => if p.runCallstackStatsDisabled then p else runCallstackStatsClick p
  | .runFlamegraph => if p.runFlamegraphDisabled then p else runFlamegraphClick p
  | .message r => (worker_onmessage strToNum r p).page
  | .readsDone k =>
    match p.pendingDumps.get? k with
    | none => p
    | some d =>
      postToWorker (dumpFilesToFS d.dir d.files)
        { p with pendingDumps := p.pendingDumps.eraseIdx k }
  | .readsFailed k => { p with pendingDumps := p.pendingDumps.eraseIdx k }
  | .timeout k =>
    match p.timers.get? k with
    | none => p
    | some (img, _) => setLoading img false { p with timers := p.timers.eraseIdx k }
  | .selectChange id i =>
    if (p.select id).disabled ∨ (p.select id).childNodes.length ≤ i then p
    else
      (selectHandler id
        (p.setSelect id { p.select id with childNodes := setSelectedAt (p.select id).childNodes i true })).page

/-! ## Sample data -/

/-- The four query actions. -/
def queryActions : List ACTION :=
  [.GET_TRACE_INFO, .GET_EVENT_TYPES, .GET_CALLSTACK_STATS, .GET_FLAMEGRAPH]

/-- The engine's answer to the call the worker makes for the request `m`. -/
def engineResult {σ ρ : Type} (H : Host σ ρ) (fs : σ) (m : Request) : Option String :=
  match m.action with
  | .GET_TRACE_INFO => H.get_trace_info fs [m.dir]
  | .GET_EVENT_TYPES => H.get_event_types fs [m.dir]
  | .GET_CALLSTACK_STATS =>
    H.get_callstack_stats fs [m.dir, m.entry_regex, some "cmp", m.exit_regex, some "cmp",
      m.entry_track, m.exit_track, m.entry_label, m.exit_label]
  | .GET_FLAMEGRAPH =>
    H.get_flamegraph fs [m.dir, m.entry_regex, some "cmp", m.exit_regex, some "cmp",
      m.entry_track, m.exit_track, m.entry_label, m.exit_label]
  | _ => none

/-- A parser for two sample texts: an empty list of event-type rows and a
statistics record without rows. -/
def sampleParse (text : String) : Option Res :=
  if text = "[]" then some (.eventTypes [])
  else if text = "\x7b\x7d" then some (.stats { hdrs := [], rows := [] })
  else none

/-- A host whose engine answers every query with `answer`, whose file system
is trivial and whose global scope has no binding named `dir`. -/
def sampleHost (answer : Option String) : Host Unit Res where
  get_trace_info := fun _ _ => answer
  get_callstack_stats := fun _ _ => answer
  get_flamegraph := fun _ _ => answer
  get_event_types := fun _ _ => answer
  JSON_parse := sampleParse
  FS_mkdir := fun _ _ => some ()
  FS_writeFile := fun _ _ _ => some ()
  globalDir := none

/-- A callstack request as the page posts it for the example trace. -/
def sampleStatsRequest : Request :=
  { action := .GET_CALLSTACK_STATS, dir := some "example",
    entry_regex := some "func_entry", exit_regex := some "func_exit",
    entry_track := some "/common-context/tid", exit_track := some "/common-context/tid",
    entry_label := some "/payload/addr", exit_label := some "/payload/addr" }

/-- A selector holding a placeholder and one option per value, the last
option selected. -/
def sampleSelect (values : List String) : Select :=
  { disabled := false,
    childNodes :=
      .opt { value := "", innerHTML := "--" } ::
        values.enum.map fun (i, v) =>
          .opt { value := v, innerHTML := v, selected := decide (i + 1 = values.length) } }

/-- A page on which the example trace has been loaded and queried. -/
def samplePage : Page where
  isExampleLoaded := true
  eventChart := some { labels := ["func_entry", "func_exit"], data := [2, 2] }
  traceInfo := some (.traceInfo
    { trace_info := .object [("version", .scalar "2")],
      events := [{ name := "func_entry", value_fields := ["/common-context/tid", "/payload/addr"] },
                 { name := "func_exit", value_fields := ["/common-context/tid", "/payload/addr"] }] })
  dirInputFiles := []
  callstackParamsOpacity := 1
  traceInfoStatus := "Trace loaded successfully from directory example"
  traceInfoAttributes := [.object [("version", .scalar "2")]]
  eventChartDisplay := ""
  runEventTypesDisabled := false
  runEventTypesErr := ""
  runCallstackStatsDisabled := false
  runCallstackStatsErr := ""
  runFlamegraphDisabled := false
  runFlamegraphErr := ""
  entrySelect := sampleSelect ["func_exit", "func_entry"]
  exitSelect := sampleSelect ["func_entry", "func_exit"]
  entryTrackSelect := sampleSelect ["/payload/addr", "/common-context/tid"]
  exitTrackSelect := sampleSelect ["/payload/addr", "/common-context/tid"]
  entryLabelSelect := sampleSelect ["/common-context/tid", "/payload/addr"]
  exitLabelSelect := sampleSelect ["/common-context/tid", "/payload/addr"]
  callstackStatsContainer := []
  flamegraphContainer := []
  loadingVisible := fun _ => false
  timers := []
  pendingDumps := []
  posted := []

/-- The loading indicator that belongs to a reply: three of the query
actions have one. -/
def loadingImgOf : ACTION → Option LoadingImg
  | .GET_CALLSTACK_STATS => some .callstackStats
  | .GET_FLAMEGRAPH => some .flamegraph
  | .GET_EVENT_TYPES => some .eventTypes
  | _ => none

/-- A successful statistics reply that reports a duration of 250 ms. -/
def sampleStatsReply : Reply Res :=
  { action := .GET_CALLSTACK_STATS, rc := some 0,
    res := some (.stats { hdrs := [], rows := [] }), dur := some 250 }

/-- The number in column `i` of a row, when that cell is a number. -/
def numAt (i : Nat) (row : List Cell) : Option ℚ :=
  match row.get? i with
  | some (.num q) => some q
  | _ => none

/-- The group key of a row: its first cell. -/
def groupKey (row : List Cell) : Option Cell :=
  row.get? 0

/-- The header list of the statistics table as the specification fixes it:
`total` is the fifth header. -/
def statsHdrs : List String :=
  ["name", "entry", "exit", "count", "total", "mean", "min", "max"]

/-- A statistics row of one call for the group `name` with total `total`. -/
def groupRow (name : String) (total : ℚ) : List Cell :=
  [.str name, .str "func_entry", .str "func_exit", .num 1, .num total, .num total,
   .num total, .num total]

/-- The four groups of the specification's ordering example. -/
def rowsABCD : List (List Cell) :=
  [groupRow "A" 5, groupRow "B" 12, groupRow "C" 12, groupRow "D" 1]

/-- A statistics result with a shorter header list, `total` third, and two
rows already in non-increasing order of `total`. -/
def shortStats : StatsData :=
  { hdrs := ["name", "count", "total", "mean", "min", "max"],
    rows := [[.str "g", .num 2, .num 30, .num 15, .num 5, .num 25],
             [.str "f", .num 1, .num 10, .num 10, .num 10, .num 10]] }

/-- The number in the fifth column of a row (`0` when it holds none). -/
def rowTotal (row : List Cell) : ℚ :=
  (numAt 4 row).getD 0

/-- The four groups of the ordering example, arriving with `C` before `B`. -/
def tiedStats : StatsData :=
  { hdrs := statsHdrs,
    rows := [groupRow "C" 12, groupRow "B" 12, groupRow "A" 5, groupRow "D" 1] }

/-- The event is a trace-info reply with `rc = 0`. -/
def isTraceInfoSuccess : Event → Bool
  | .message r => decide (r.action = .GET_TRACE_INFO) && decide (r.rc = some 0)
  | _ => false

/-- The part of the page that the waiting condition reads: `traceInfo`, the
`disabled` flags of the three run buttons, and the six selectors. -/
def watched (p : Page) :
    Option Res × Bool × Bool × Bool × Select × Select × Select × Select × Select × Select :=
  (p.traceInfo, p.runEventTypesDisabled, p.runCallstackStatsDisabled, p.runFlamegraphDisabled,
   p.entrySelect, p.exitSelect, p.entryTrackSelect, p.exitTrackSelect, p.entryLabelSelect,
   p.exitLabelSelect)

/-- No trace is loaded and the three run buttons are disabled. -/
def ButtonsOff (p : Page) : Prop :=
  p.traceInfo = none ∧ p.runEventTypesDisabled = true ∧
  p.runCallstackStatsDisabled = true ∧ p.runFlamegraphDisabled = true

instance (p : Page) : Decidable (ButtonsOff p) :=
  decidable_of_iff
    (p.traceInfo.isNone = true ∧ p.runEventTypesDisabled = true ∧
      p.runCallstackStatsDisabled = true ∧ p.runFlamegraphDisabled = true)
    (by simp [ButtonsOff, Option.isNone_iff_eq_none])

/-- The page waits for a trace: none is loaded, the three run buttons are
disabled, and either every selector is disabled or some selector has no
option at all. -/
def Awaiting (p : Page) : Prop :=
  ButtonsOff p ∧
  ((∀ id, (p.select id).disabled = true) ∨ ∃ id, (p.select id).childNodes = [])

instance (p : Page) : Decidable (Awaiting p) := by
  unfold Awaiting
  infer_instance

/-- Two files of a directory named like the example trace. -/
def exampleNamedFiles : List InputFile :=
  [{ webkitRelativePath := "example/metadata", data := [1, 2] },
   { webkitRelativePath := "example/stream0", data := [3] }]

/-- The sample page after the user has chosen a directory named `example`:
the listener has run up to its `await` and the files are still being read. -/
def stagingExamplePage : Page :=
  step (fun _ => none) samplePage (.dirChange exampleNamedFiles)

/-- A `WRITE_FILES` reply for the directory `trace`. -/
def sampleWriteReply : Reply Res :=
  { action := .WRITE_FILES, rc := some 0, dir := some "trace" }

/-- A run of the page while the chosen directory is staged: the file reads
finish, the worker confirms the write, the user clicks a run button, and a
trace-info query fails. -/
def sampleEvents : List Event :=
  [.readsDone 0,
   .message { action := .WRITE_FILES, rc := some 0, dir := some "example" },
   .runEventTypes,
   .message { action := .GET_TRACE_INFO, rc := some (-1),
              err := some "Failed to read example as a CTF2 trace" }]

/-! ## The page and the worker together -/

/-- The page, the worker's file system and the two message queues between
them, with a record of what the worker has done: the requests it has handled
and the files it has written (each oldest first). -/
structure World (σ : Type) where
  page : Page
  fs : σ
  inbox : List Request
  replies : List (Reply Res)
  handled : List Request
  writtenLog : List StagedFile

/-- What can happen next: something happens on the page, the worker handles
its oldest request (reading the clock twice), or the page receives the
worker's oldest reply. -/
inductive Move where
  | user (e : Event)
  | work (t0 t1 : ℚ)
  | deliver

/-- The messages a page step has added to those posted before it. -/
def newPosts (before after : Page) : List Request :=
  after.posted.drop before.posted.length

/-- One move of the two scripts.  A worker reply reaches the page only
through the reply queue, so `user` moves carry no `message` event. -/
def World.next {σ : Type} (strToNum : String → JSNum) (H : Host σ Res) (w : World σ) :
    Move → World σ
  | .user (.message _) => w
  | .user e =>
    { w with
      page := step strToNum w.page e
      inbox := w.inbox ++ newPosts w.page (step strToNum w.page e) }
  | .work t0 t1 =>
    match w.inbox with
    | [] => w
    | m :: rest =>
      { w with
        fs := (onmessage H w.fs t0 t1 m).fs
        inbox := rest
        replies := w.replies ++ (onmessage H w.fs t0 t1 m).posted
        handled := w.handled ++ [m]
        writtenLog := w.writtenLog ++ (onmessage H w.fs t0 t1 m).written }
  | .deliver =>
    match w.replies with
    | [] => w
    | r :: rest =>
      { w with
        page := step strToNum w.page (.message r)
        replies := rest
        inbox := w.inbox ++ newPosts w.page (step strToNum w.page (.message r)) }

/-- The directory `dir` is staged: the worker has handled a `WRITE_FILES`
request for it and has written every file of that request. -/
def Staged {σ : Type} (w : World σ) (dir : JSStr) : Prop :=
  ∃ m ∈ w.handled, m.action = .WRITE_FILES ∧ m.dir = dir ∧
    ∃ files ∈ m.files, ∀ f ∈ files, f ∈ w.writtenLog

instance {σ : Type} (w : World σ) (dir : JSStr) : Decidable (Staged w dir) := by
  unfold Staged
  infer_instance

/-- A world in which the sample page starts with empty queues. -/
def sampleWorld : World Unit :=
  { page := samplePage, fs := (), inbox := [], replies := [], handled := [], writtenLog := [] }

/-- Two files of a directory named `trace`, one of them in a subdirectory. -/
def traceFiles : List InputFile :=
  [{ webkitRelativePath := "trace/metadata", data := [1, 2] },
   { webkitRelativePath := "trace/sub/stream0", data := [3] }]

/-- A run in which the user chooses the directory `trace`, the reads finish,
the worker stages the files and answers, and the page receives the answer. -/
def sampleMoves : List Move :=
  [.user (.dirChange traceFiles), .user (.readsDone 0), .work 0 1, .deliver]

/-- A run in which the user chooses a directory named `example` and clicks
the example button while the files are still being read. -/
def exampleRaceMoves : List Move :=
  [.user (.dirChange exampleNamedFiles), .user .exampleClick]

/-- The number of `/` characters in a path. -/
def slashes (path : String) : Nat :=
  path.data.count '/'

/-- The sample page with markup in which white space precedes the first
option of the entry selector. -/
def textFirstPage : Page :=
  { samplePage with
    entrySelect :=
      { disabled := false,
        childNodes := .text "\n  " :: (sampleSelect ["func_exit", "func_entry"]).childNodes } }

/-- A successful statistics reply whose duration is the double nearest to
`0.1`. -/
def tenthReply : Reply Res :=
  { action := .GET_CALLSTACK_STATS, rc := some 0,
    res := some (.stats { hdrs := [], rows := [] }), dur := some (3602879701896397 / 2 ^ 55) }

/-! ## Theorems: worker.js -/

/-- C1: on a callstack-statistics request that the engine answers with
nothing, in a global scope without a binding named `dir`, the handler ends
with a `ReferenceError` and posts no reply. -/
theorem stats_failure_branch_throws :
    (onmessage (sampleHost none) () 0 0 sampleStatsRequest).threw = some .ReferenceError ∧
    (onmessage (sampleHost none) () 0 0 sampleStatsRequest).posted.length = 0 := by
  constructor <;> rfl

theorem failure_reply_of_other_queries {σ ρ : Type} (H : Host σ ρ) (fs : σ) (t0 t1 : ℚ)
    (m : Request)
    (ha : m.action = .GET_TRACE_INFO ∨ m.action = .GET_EVENT_TYPES ∨ m.action = .GET_FLAMEGRAPH)
    (hf : falsy (engineResult H fs m) = true) :
    (onmessage H fs t0 t1 m).threw = none ∧
    ∃ r, (onmessage H fs t0 t1 m).posted = [r] ∧ r.action = m.action ∧
      r.rc = some (-1) ∧ ∃ e, r.err = some e := by
  rcases ha with h | h | h
  all_goals
    simp only [engineResult, h] at hf
    simp [onmessage, h, hf]

/-- C2: for each of the four query actions, a non-empty engine text that
parses yields exactly one reply, with `rc = 0`, no `err` and `res` the parsed
value; and a missing engine result never yields a reply with `rc = 0`. -/
theorem success_reply_iff_result {σ ρ : Type} (H : Host σ ρ) (fs : σ) (t0 t1 : ℚ)
    (m : Request) (hq : m.action ∈ queryActions) :
    (∀ txt v, engineResult H fs m = some txt → txt ≠ "" → H.JSON_parse txt = some v →
      (onmessage H fs t0 t1 m).threw = none ∧
      ∃ r, (onmessage H fs t0 t1 m).posted = [r] ∧ r.action = m.action ∧
        r.rc = some 0 ∧ r.err = none ∧ r.res = some v) ∧
    (falsy (engineResult H fs m) = true →
      ∀ r ∈ (onmessage H fs t0 t1 m).posted, r.rc ≠ some 0) := by
  have hne : ∀ txt : String, txt ≠ "" → falsy (some txt) = false := by
    intro txt h
    simp [falsy, h]
  simp only [queryActions, List.mem_cons, List.mem_singleton, List.not_mem_nil, or_false] at hq
  rcases hq with h | h | h | h
  all_goals
    refine ⟨?_, ?_⟩
    · intro txt v hres hnz hparse
      simp only [engineResult, h] at hres
      simp [onmessage, h, hres, hne txt hnz, parseAndPost, hparse]
    · intro hf r hr
      simp only [engineResult, h] at hf
      simp only [onmessage, h, hf, if_true] at hr
      first
        | (simp only [List.mem_singleton] at hr; subst hr; simp)
        | (revert hr
           cases H.globalDir with
           | none => simp
           | some d =>
             simp only [List.mem_singleton]
             intro hr
             subst hr
             simp)

/-- C2, at the sample host answering the event-types query with the text of
an empty list. -/
theorem success_reply_iff_result_witness :
    (onmessage (sampleHost (some "[]")) () 0 7 { action := .GET_EVENT_TYPES, dir := some "example" }).threw = none ∧
    ∃ r, (onmessage (sampleHost (some "[]")) () 0 7
        { action := .GET_EVENT_TYPES, dir := some "example" }).posted = [r] ∧
      r.action = .GET_EVENT_TYPES ∧ r.rc = some 0 ∧ r.err = none ∧ r.res = some (.eventTypes []) :=
  (success_reply_iff_result (sampleHost (some "[]")) () 0 7
    { action := .GET_EVENT_TYPES, dir := some "example" } (by decide)).1
    "[]" (.eventTypes []) rfl (by decide) rfl

/-- C8: on an event-types request that the engine answers with nothing, the
reason string of the reply names `get_flamegraph`; it is the very string the
flamegraph query reports for the same directory. -/
theorem event_types_failure_names_flamegraph :
    (onmessage (sampleHost none) () 0 0
        { action := .GET_EVENT_TYPES, dir := some "trace" }).posted.map (fun r => r.err)
      = [some "get_flamegraph failed on trace"] ∧
    (onmessage (sampleHost none) () 0 0
        { action := .GET_FLAMEGRAPH, dir := some "trace" }).posted.map (fun r => r.err)
      = [some "get_flamegraph failed on trace"] := by
  constructor <;> rfl

/-! ## Theorems: avis.js -/

theorem select_setSelect (p : Page) (id id2 : SelectId) (s : Select) :
    (p.setSelect id s).select id2 = if id2 = id then s else p.select id2 := by
  cases id <;> cases id2 <;> simp [Page.setSelect, Page.select]

theorem selectFirstOption_length (k : List ChildNode) :
    (selectFirstOption k).length = k.length := by
  induction k with
  | nil => rfl
  | cons c rest ih =>
    cases c with
    | opt o => rfl
    | text data => simp [selectFirstOption, ih]

theorem resetSelectedness_cons (c : ChildNode) (rest : List ChildNode) :
    ∃ c2 rest2, resetSelectedness (c :: rest) = c2 :: rest2 ∧
      c2.setSelected true = c.setSelected true ∧ rest2.length = rest.length := by
  unfold resetSelectedness
  split
  · exact ⟨c, rest, rfl, rfl, rfl⟩
  · cases c with
    | opt o => exact ⟨_, rest, rfl, rfl, rfl⟩
    | text data => exact ⟨_, _, rfl, rfl, selectFirstOption_length rest⟩

theorem resetLoop_cons (n : Nat) : ∀ (c : ChildNode) (rest : List ChildNode),
    rest.length = n →
    ∃ c2, resetLoop (c :: rest) = [c2] ∧ c2.setSelected true = c.setSelected true := by
  induction n with
  | zero =>
    intro c rest h
    have hr : rest = [] := List.length_eq_zero.mp h
    subst hr
    refine ⟨c, ?_, rfl⟩
    rw [resetLoop]
    simp
  | succ n ih =>
    intro c rest h
    rw [resetLoop]
    have h1 : 1 < (c :: rest).length := by simp [h]
    rw [if_pos h1]
    have hne : rest ≠ [] := by
      intro hr
      simp [hr] at h
    have hd : (c :: rest).dropLast = c :: rest.dropLast := by
      cases rest with
      | nil => exact absurd rfl hne
      | cons a t => rfl
    have hlen : rest.dropLast.length = n := by simp [h]
    obtain ⟨c2, rest2, hreset, hsel, hl2⟩ := resetSelectedness_cons c rest.dropLast
    rw [removeLastChild, hd, hreset]
    obtain ⟨c3, hloop, hsel3⟩ := ih c2 rest2 (by rw [hl2, hlen])
    exact ⟨c3, hloop, hsel3.trans hsel⟩

theorem setSelectedAt_single (c : ChildNode) :
    setSelectedAt [c] 0 true = [c.setSelected true] := by
  cases c <;> rfl

theorem resetSelector_cons (id : SelectId) (p : Page) (c : ChildNode) (rest : List ChildNode)
    (h : (p.select id).childNodes = c :: rest) :
    resetSelector id p =
      { page := p.setSelect id
          { disabled := (p.select id).disabled, childNodes := [c.setSelected true] } } := by
  obtain ⟨c2, hb, hs⟩ := resetLoop_cons rest.length c rest rfl
  simp [resetSelector, h, hb, setSelectedAt_single, hs]

theorem disableAndReset_cons (id : SelectId) (p : Page) (c : ChildNode)
    (rest : List ChildNode) (h : (p.select id).childNodes = c :: rest) :
    disableAndReset id p =
      { page := p.setSelect id
          { disabled := true, childNodes := [c.setSelected true] } } := by
  have h2 : ((p.setSelect id { p.select id with disabled := true }).select id).childNodes
      = c :: rest := by
    simp [select_setSelect, h]
  rw [disableAndReset, resetSelector_cons id _ c rest h2]
  cases id <;> simp [Page.setSelect, Page.select]

theorem onNewTraceLoadedPre_eq (p : Page) (c1 c2 c3 c4 c5 c6 : ChildNode)
    (r1 r2 r3 r4 r5 r6 : List ChildNode)
    (h1 : p.entrySelect.childNodes = c1 :: r1) (h2 : p.exitSelect.childNodes = c2 :: r2)
    (h3 : p.entryTrackSelect.childNodes = c3 :: r3)
    (h4 : p.exitTrackSelect.childNodes = c4 :: r4)
    (h5 : p.entryLabelSelect.childNodes = c5 :: r5)
    (h6 : p.exitLabelSelect.childNodes = c6 :: r6) :
    onNewTraceLoadedPre p =
      { page :=
          { p with
            traceInfoStatus := ""
            traceInfoAttributes := []
            traceInfo := none
            eventChartDisplay := "none"
            runEventTypesDisabled := true
            runEventTypesErr := ""
            runCallstackStatsDisabled := true
            runCallstackStatsErr := ""
            runFlamegraphDisabled := true
            runFlamegraphErr := ""
            callstackParamsOpacity := 6 / 10
            entrySelect := { disabled := true, childNodes := [c1.setSelected true] }
            exitSelect := { disabled := true, childNodes := [c2.setSelected true] }
            entryTrackSelect := { disabled := true, childNodes := [c3.setSelected true] }
            exitTrackSelect := { disabled := true, childNodes := [c4.setSelected true] }
            entryLabelSelect := { disabled := true, childNodes := [c5.setSelected true] }
            exitLabelSelect := { disabled := true, childNodes := [c6.setSelected true] }
            eventChart := none
            callstackStatsContainer := []
            flamegraphContainer := [] } } := by
  unfold onNewTraceLoadedPre
  simp only []
  rw [disableAndReset_cons .entry _ c1 r1 (by simpa [Page.select] using h1)]
  simp only [Ran.andThen]
  rw [disableAndReset_cons .exit _ c2 r2 (by simpa [Page.select, Page.setSelect] using h2)]
  simp only [Ran.andThen]
  rw [disableAndReset_cons .entryTrack _ c3 r3 (by simpa [Page.select, Page.setSelect] using h3)]
  simp only [Ran.andThen]
  rw [disableAndReset_cons .exitTrack _ c4 r4 (by simpa [Page.select, Page.setSelect] using h4)]
  simp only [Ran.andThen]
  rw [disableAndReset_cons .entryLabel _ c5 r5 (by simpa [Page.select, Page.setSelect] using h5)]
  simp only [Ran.andThen]
  rw [disableAndReset_cons .exitLabel _ c6 r6 (by simpa [Page.select, Page.setSelect] using h6)]
  simp only [Page.setSelect]

theorem pre_resets_of_options (p : Page)
    (h : ∀ id, ∃ o rest, (p.select id).childNodes = .opt o :: rest) :
    (onNewTraceLoadedPre p).threw = none ∧
    (onNewTraceLoadedPre p).page.traceInfo = none ∧
    (onNewTraceLoadedPre p).page.runEventTypesDisabled = true ∧
    (onNewTraceLoadedPre p).page.runCallstackStatsDisabled = true ∧
    (onNewTraceLoadedPre p).page.runFlamegraphDisabled = true ∧
    ∀ id, ((onNewTraceLoadedPre p).page.select id).disabled = true ∧
      ∃ o rest, (p.select id).childNodes = .opt o :: rest ∧
        ((onNewTraceLoadedPre p).page.select id).childNodes
          = [.opt { o with selected := true }] := by
  obtain ⟨o1, r1, h1⟩ := h .entry
  obtain ⟨o2, r2, h2⟩ := h .exit
  obtain ⟨o3, r3, h3⟩ := h .entryTrack
  obtain ⟨o4, r4, h4⟩ := h .exitTrack
  obtain ⟨o5, r5, h5⟩ := h .entryLabel
  obtain ⟨o6, r6, h6⟩ := h .exitLabel
  simp only [Page.select] at h1 h2 h3 h4 h5 h6
  rw [onNewTraceLoadedPre_eq p _ _ _ _ _ _ r1 r2 r3 r4 r5 r6 h1 h2 h3 h4 h5 h6]
  refine ⟨rfl, rfl, rfl, rfl, rfl, ?_⟩
  intro id
  cases id <;> simp [Page.select, ChildNode.setSelected, h1, h2, h3, h4, h5, h6]

/-- C7 (as stated, refuted): on the sample page with white space before the
first option of the entry selector, every selector has at least one option,
yet `onNewTraceLoadedPre` leaves the entry selector holding only the text
node: no option is left in it, the placeholder included, and its value is
the empty string. -/
theorem leading_text_node_loses_options :
    (∀ id, (textFirstPage.select id).options ≠ []) ∧
    (onNewTraceLoadedPre textFirstPage).threw = none ∧
    (onNewTraceLoadedPre textFirstPage).page.entrySelect.childNodes = [.text "\n  "] ∧
    (onNewTraceLoadedPre textFirstPage).page.entrySelect.options = [] := by
  have heq := onNewTraceLoadedPre_eq textFirstPage _ _ _ _ _ _ _ _ _ _ _ _
    rfl rfl rfl rfl rfl rfl
  refine ⟨?_, ?_, ?_, ?_⟩
  · intro id
    cases id <;> decide
  · rw [heq]
  · rw [heq]
    rfl
  · rw [heq]
    rfl

/-- C7 (amended): from a page on which the first child node of each of the
six selectors is an option, `onNewTraceLoadedPre` returns without an
exception and leaves `traceInfo` null, the three run buttons disabled, and
every selector disabled and holding only that first option, selected. -/
theorem onNewTraceLoadedPre_resets (p : Page)
    (h : ∀ id, ∃ o rest, (p.select id).childNodes = .opt o :: rest) :
    (onNewTraceLoadedPre p).threw = none ∧
    (onNewTraceLoadedPre p).page.traceInfo = none ∧
    (onNewTraceLoadedPre p).page.runEventTypesDisabled = true ∧
    (onNewTraceLoadedPre p).page.runCallstackStatsDisabled = true ∧
    (onNewTraceLoadedPre p).page.runFlamegraphDisabled = true ∧
    ∀ id, ((onNewTraceLoadedPre p).page.select id).disabled = true ∧
      ∃ o rest, (p.select id).childNodes = .opt o :: rest ∧
        ((onNewTraceLoadedPre p).page.select id).childNodes
          = [.opt { o with selected := true }] :=
  pre_resets_of_options p h

/-- C7 (amended), at the sample page. -/
theorem onNewTraceLoadedPre_resets_witness :
    (onNewTraceLoadedPre samplePage).threw = none ∧
    (onNewTraceLoadedPre samplePage).page.traceInfo = none ∧
    (onNewTraceLoadedPre samplePage).page.runEventTypesDisabled = true ∧
    (onNewTraceLoadedPre samplePage).page.runCallstackStatsDisabled = true ∧
    (onNewTraceLoadedPre samplePage).page.runFlamegraphDisabled = true ∧
    ∀ id, ((onNewTraceLoadedPre samplePage).page.select id).disabled = true ∧
      ∃ o rest, (samplePage.select id).childNodes = .opt o :: rest ∧
        ((onNewTraceLoadedPre samplePage).page.select id).childNodes
          = [.opt { o with selected := true }] :=
  onNewTraceLoadedPre_resets samplePage (by intro id; cases id <;> exact ⟨_, _, rfl⟩)

theorem jsAnd_eq_empty (a b : String) : jsAnd a b = "" ↔ a = "" ∨ b = "" := by
  unfold jsAnd
  by_cases h : a = "" <;> simp [h]

theorem callstackButtons_flags (p : Page) :
    (updateCallstackButtons p).runCallstackStatsDisabled
      = (updateCallstackButtons p).runFlamegraphDisabled ∧
    ((updateCallstackButtons p).runCallstackStatsDisabled = true ↔
      ∃ id, ((updateCallstackButtons p).select id).value = "") := by
  refine ⟨rfl, ?_⟩
  simp only [updateCallstackButtons, decide_eq_true_eq, jsAnd_eq_empty]
  constructor
  · rintro (((((h | h) | h) | h) | h) | h)
    · exact ⟨.entry, h⟩
    · exact ⟨.exit, h⟩
    · exact ⟨.entryTrack, h⟩
    · exact ⟨.exitTrack, h⟩
    · exact ⟨.entryLabel, h⟩
    · exact ⟨.exitLabel, h⟩
  · rintro ⟨id, h⟩
    cases id <;> simp only [Page.select] at h <;> simp [h]

/-- C10: after `updateCallstackButtons` the two run buttons carry the same
`disabled` flag, and it is set exactly when one of the six selectors has the
empty string as its value. -/
theorem updateCallstackButtons_disabled_iff (p : Page) :
    (updateCallstackButtons p).runCallstackStatsDisabled
      = (updateCallstackButtons p).runFlamegraphDisabled ∧
    ((updateCallstackButtons p).runCallstackStatsDisabled = true ↔
      ∃ id, ((updateCallstackButtons p).select id).value = "") :=
  callstackButtons_flags p

/-- C3: the worker hands the engine the nine arguments in the order
`dir, entry_regex, "cmp", exit_regex, "cmp", entry_track, exit_track,
entry_label, exit_label` for both callstack queries, and each click handler
fills the six fields of its message from the selector of the same name. -/
theorem callstack_arguments_in_order {σ ρ : Type} (H : Host σ ρ) (fs : σ) (t0 t1 : ℚ)
    (m : Request) (p : Page) (dir : String) (hdir : getInputDir p = some dir) :
    (onmessage H fs t0 t1 { m with action := .GET_CALLSTACK_STATS }).calls =
      [{ fn := "get_callstack_stats",
         args := [m.dir, m.entry_regex, some "cmp", m.exit_regex, some "cmp",
                  m.entry_track, m.exit_track, m.entry_label, m.exit_label] }] ∧
    (onmessage H fs t0 t1 { m with action := .GET_FLAMEGRAPH }).calls =
      [{ fn := "get_flamegraph",
         args := [m.dir, m.entry_regex, some "cmp", m.exit_regex, some "cmp",
                  m.entry_track, m.exit_track, m.entry_label, m.exit_label] }] ∧
    (runCallstackStatsClick p).posted = p.posted ++
      [{ action := .GET_CALLSTACK_STATS, dir := some dir,
         entry_regex := some p.entrySelect.value, exit_regex := some p.exitSelect.value,
         entry_track := some p.entryTrackSelect.value, exit_track := some p.exitTrackSelect.value,
         entry_label := some p.entryLabelSelect.value, exit_label := some p.exitLabelSelect.value }] ∧
    (runFlamegraphClick p).posted = p.posted ++
      [{ action := .GET_FLAMEGRAPH, dir := some dir,
         entry_regex := some p.entrySelect.value, exit_regex := some p.exitSelect.value,
         entry_track := some p.entryTrackSelect.value, exit_track := some p.exitTrackSelect.value,
         entry_label := some p.entryLabelSelect.value, exit_label := some p.exitLabelSelect.value }] := by
  have hd1 : getInputDir { p with runCallstackStatsErr := "", callstackStatsContainer := [] }
      = some dir := by
    simpa [getInputDir] using hdir
  have hd2 : getInputDir { p with runFlamegraphErr := "", flamegraphContainer := [] }
      = some dir := by
    simpa [getInputDir] using hdir
  refine ⟨?_, ?_, ?_, ?_⟩
  · simp only [onmessage, parseAndPost]
    split
    · cases H.globalDir <;> rfl
    · split <;> rfl
  · simp only [onmessage, parseAndPost]
    split
    · rfl
    · split <;> rfl
  · simp [runCallstackStatsClick, hd1, postToWorker, setLoading]
  · simp [runFlamegraphClick, hd2, postToWorker, setLoading]

/-- C3, at the sample page (the example trace is loaded) and the sample
host. -/
theorem callstack_arguments_in_order_witness :
    (onmessage (sampleHost none) () 0 0 sampleStatsRequest).calls =
      [{ fn := "get_callstack_stats",
         args := [some "example", some "func_entry", some "cmp", some "func_exit", some "cmp",
                  some "/common-context/tid", some "/common-context/tid",
                  some "/payload/addr", some "/payload/addr"] }] ∧
    (runCallstackStatsClick samplePage).posted = samplePage.posted ++ [sampleStatsRequest] :=
  ⟨(callstack_arguments_in_order (sampleHost none) () 0 0 sampleStatsRequest samplePage
      "example" rfl).1,
   (callstack_arguments_in_order (sampleHost none) () 0 0 sampleStatsRequest samplePage
      "example" rfl).2.2.1⟩

theorem roundHalfEven_cases (y : ℚ) : roundHalfEven y = ⌊y⌋ ∨ roundHalfEven y = ⌊y⌋ + 1 := by
  unfold roundHalfEven
  split
  · exact Or.inl rfl
  · split
    · exact Or.inr rfl
    · split
      · exact Or.inl rfl
      · exact Or.inr rfl

theorem roundHalfEven_close (y : ℚ) : |(roundHalfEven y : ℚ) - y| ≤ 1 / 2 := by
  have h1 := Int.floor_le y
  have h2 := Int.lt_floor_add_one y
  unfold roundHalfEven
  rw [abs_le]
  split
  · constructor <;> linarith
  · split
    · push_cast
      constructor <;> linarith
    · split
      · constructor <;> linarith
      · push_cast
        constructor <;> linarith

theorem roundHalfEven_nonneg (y : ℚ) (h : 0 ≤ y) : 0 ≤ roundHalfEven y := by
  have h0 : 0 ≤ ⌊y⌋ := Int.floor_nonneg.mpr h
  rcases roundHalfEven_cases y with hr | hr <;> rw [hr] <;> omega

theorem roundHalfEven_le (y : ℚ) (n : ℤ) (h : y ≤ n) : roundHalfEven y ≤ n := by
  by_cases hy : y = n
  · have hf : ⌊y⌋ = n := by rw [hy]; exact Int.floor_intCast n
    unfold roundHalfEven
    rw [hf, hy]
    simp
  · have hlt : y < n := lt_of_le_of_ne h hy
    have hf : ⌊y⌋ < n := Int.floor_lt.mpr hlt
    rcases roundHalfEven_cases y with hr | hr <;> rw [hr] <;> omega

theorem roundHalfEven_intCast (n : ℤ) : roundHalfEven (n : ℚ) = n := by
  unfold roundHalfEven
  simp

theorem roundHalfEven_of_floor (y : ℚ) (n : ℤ) (h1 : (n : ℚ) ≤ y) (h2 : y < n + 1 / 2) :
    roundHalfEven y = n := by
  have hf : ⌊y⌋ = n := by
    rw [Int.floor_eq_iff]
    constructor
    · exact h1
    · linarith
  unfold roundHalfEven
  rw [hf, if_pos (by linarith)]

theorem ulpExponent_of_binade (x : ℚ) (e : ℤ) (h0 : 0 < x) (hlo : (2 : ℚ) ^ e ≤ x)
    (hhi : x < (2 : ℚ) ^ (e + 1)) (he : -1022 ≤ e) : ulpExponent x = e - 52 := by
  have hlog : Int.log 2 |x| = e := by
    rw [abs_of_pos h0]
    apply le_antisymm
    · have := (Int.lt_zpow_iff_log_lt (b := 2) (by norm_num) h0).mp (by exact_mod_cast hhi)
      omega
    · exact (Int.zpow_le_iff_le_log (b := 2) (by norm_num) h0).mp (by exact_mod_cast hlo)
  rw [ulpExponent, hlog, max_eq_left he]

theorem ulpExponent_le (x : ℚ) (h0 : 0 < x) (h : x ≤ 1000) : ulpExponent x ≤ -43 := by
  have hlt : x < ((2 : ℕ) : ℚ) ^ (10 : ℤ) := by
    have : ((2 : ℕ) : ℚ) ^ (10 : ℤ) = 1024 := by norm_num
    rw [this]
    linarith
  have hlog := (Int.lt_zpow_iff_log_lt (b := 2) (by norm_num) h0).mp hlt
  rw [ulpExponent, abs_of_pos h0]
  have : max (Int.log 2 x) (-1022) ≤ 9 := max_le (by omega) (by norm_num)
  omega


theorem ulp_facts (k : ℤ) (hk : k ≤ -43) :
    0 < (2 : ℚ) ^ k ∧ (2 : ℚ) ^ k ≤ 1 / 2 ^ 43 ∧ ∃ N : ℤ, 1000 / (2 : ℚ) ^ k = N := by
  obtain ⟨n, hn⟩ : ∃ n : ℕ, k = -(n : ℤ) := ⟨(-k).toNat, by omega⟩
  have hn43 : 43 ≤ n := by omega
  have hpow : (2 : ℚ) ^ k = ((2 : ℚ) ^ n)⁻¹ := by
    rw [hn, zpow_neg, zpow_natCast]
  have hpos : (0 : ℚ) < 2 ^ n := by positivity
  refine ⟨by rw [hpow]; positivity, ?_, ⟨1000 * 2 ^ n, ?_⟩⟩
  · rw [hpow, one_div]
    apply inv_anti₀ (by positivity)
    exact pow_le_pow_right₀ (by norm_num) hn43
  · rw [hpow]
    push_cast
    field_simp

theorem roundToDouble_bounds (x : ℚ) (h0 : 0 < x) (h : x ≤ 1000) :
    0 ≤ roundToDouble x ∧ roundToDouble x ≤ 1000 ∧ |roundToDouble x - x| ≤ 1 / 2 ^ 44 := by
  obtain ⟨hu0, hu43, N, hN⟩ := ulp_facts (ulpExponent x) (ulpExponent_le x h0 h)
  unfold roundToDouble
  generalize (2 : ℚ) ^ ulpExponent x = u at hu0 hu43 hN
  have hy0 : 0 ≤ x / u := by positivity
  have hyN : x / u ≤ N := by
    rw [← hN]
    exact div_le_div_of_nonneg_right h hu0.le
  have hr0 : (0 : ℚ) ≤ roundHalfEven (x / u) := by
    exact_mod_cast roundHalfEven_nonneg _ hy0
  have hrN : (roundHalfEven (x / u) : ℚ) ≤ N := by
    exact_mod_cast roundHalfEven_le _ N hyN
  have hclose := roundHalfEven_close (x / u)
  refine ⟨by positivity, ?_, ?_⟩
  · calc (roundHalfEven (x / u) : ℚ) * u ≤ N * u := by
          exact mul_le_mul_of_nonneg_right hrN hu0.le
      _ = 1000 := by
          rw [← hN]
          field_simp
  · have hx : (roundHalfEven (x / u) : ℚ) * u - x = ((roundHalfEven (x / u) : ℚ) - x / u) * u := by
      field_simp
    rw [hx, abs_mul, abs_of_pos hu0]
    calc |(roundHalfEven (x / u) : ℚ) - x / u| * u ≤ 1 / 2 * (1 / 2 ^ 43) := by
          exact mul_le_mul hclose hu43 hu0.le (by norm_num)
      _ = 1 / 2 ^ 44 := by norm_num

theorem roundToDouble_exact (x : ℚ) (n : ℤ) (h : x / 2 ^ ulpExponent x = n) :
    roundToDouble x = x := by
  have hu : (2 : ℚ) ^ ulpExponent x ≠ 0 := zpow_ne_zero _ (by norm_num)
  unfold roundToDouble
  rw [h, roundHalfEven_intCast]
  exact ((div_eq_iff hu).mp h).symm

theorem doubleSub_tenth :
    doubleSub 1000 (3602879701896397 / 2 ^ 55) = 8795213412905779 / 2 ^ 43 := by
  have hk : ulpExponent (1000 - 3602879701896397 / 2 ^ 55) = -43 := by
    rw [ulpExponent_of_binade _ 9 (by norm_num) (by norm_num) (by norm_num) (by norm_num)]
    norm_num
  have hu : (2 : ℚ) ^ (-43 : ℤ) = 1 / 2 ^ 43 := by
    norm_num
  unfold doubleSub roundToDouble
  rw [hk, hu, roundHalfEven_of_floor _ 8795213412905779 (by norm_num) (by norm_num)]
  norm_num

theorem tenth_is_a_double :
    roundToDouble (3602879701896397 / 2 ^ 55) = 3602879701896397 / 2 ^ 55 := by
  have hk : ulpExponent (3602879701896397 / 2 ^ 55) = -56 := by
    rw [ulpExponent_of_binade _ (-4) (by norm_num) (by norm_num) (by norm_num) (by norm_num)]
    norm_num
  apply roundToDouble_exact _ 7205759403792794
  rw [hk]
  norm_num

theorem hideDelay_values (r : Reply Res) :
    (r.dur = none → hideDelay r = 0) ∧
    ∀ dur, r.dur = some dur →
      (1000 ≤ dur → hideDelay r = 0) ∧
      (dur < 1000 → hideDelay r = roundToDouble (1000 - dur)) ∧
      (dur < 1000 → (∃ n : ℤ, (1000 - dur) / 2 ^ ulpExponent (1000 - dur) = n) →
        hideDelay r = 1000 - dur) ∧
      (0 ≤ dur → 0 ≤ hideDelay r ∧ hideDelay r ≤ 1000 ∧ 1000 - 1 / 2 ^ 44 ≤ dur + hideDelay r) := by
  refine ⟨fun h => by simp [hideDelay, h], ?_⟩
  intro dur h
  simp only [hideDelay, h]
  refine ⟨fun h1 => by simp [not_lt.mpr h1], fun h1 => by simp [h1, doubleSub], ?_, ?_⟩
  · rintro h1 ⟨n, hn⟩
    rw [if_pos h1, doubleSub]
    exact roundToDouble_exact _ n hn
  · intro h0
    split
    · next h1 =>
      obtain ⟨b0, b1, b2⟩ := roundToDouble_bounds (1000 - dur) (by linarith) (by linarith)
      rw [abs_le] at b2
      refine ⟨b0, b1, ?_⟩
      unfold doubleSub
      linarith [b2.1]
    · next h1 =>
      have hpos : (0 : ℚ) < 1 / 2 ^ 44 := by norm_num
      exact ⟨le_refl _, by norm_num, by linarith⟩

theorem timers_after_reply (strToNum : String → JSNum) (r : Reply Res) (p : Page)
    (img : LoadingImg) (himg : loadingImgOf r.action = some img) :
    (worker_onmessage strToNum r p).page.timers = p.timers ++ [(img, hideDelay r)] := by
  cases hact : r.action <;> simp only [hact, loadingImgOf, Option.some.injEq] at himg <;>
    try exact absurd himg (by simp)
  all_goals
    subst himg
    simp only [worker_onmessage, hact, setTimeout]
    split
    · first
        | rfl
        | (simp only [updateCallstackStatsTable]; split <;> rfl)
        | (simp only [updateChart]; split <;> rfl)
    · rfl

theorem reply_effect_without_dur (strToNum : String → JSNum) (r : Reply Res) (p : Page)
    (img : LoadingImg) (himg : loadingImgOf r.action = some img) (dur2 : Option ℚ) :
    (worker_onmessage strToNum { r with dur := dur2 } p).threw
      = (worker_onmessage strToNum r p).threw ∧
    { (worker_onmessage strToNum { r with dur := dur2 } p).page with timers := [] }
      = { (worker_onmessage strToNum r p).page with timers := [] } := by
  cases hact : r.action <;> simp only [hact, loadingImgOf, Option.some.injEq] at himg <;>
    try exact absurd himg (by simp)
  all_goals
    simp only [worker_onmessage, hact, setTimeout]
    split
    · first
        | exact ⟨rfl, rfl⟩
        | (simp only [updateCallstackStatsTable]; split <;> exact ⟨rfl, rfl⟩)
        | (simp only [updateChart]; split <;> exact ⟨rfl, rfl⟩)
    · exact ⟨rfl, rfl⟩

/-- C9 (as stated, refuted): for a reply whose `dur` is the double nearest to
`0.1`, the delay handed to `setTimeout` is the double `8795213412905779 / 2^43`:
it is not `1000 - dur`, and `dur + delay` is less than `1000`. -/
theorem hide_delay_is_rounded :
    roundToDouble (3602879701896397 / 2 ^ 55) = 3602879701896397 / 2 ^ 55 ∧
    (worker_onmessage (fun _ => none) tenthReply samplePage).page.timers
      = samplePage.timers ++ [(.callstackStats, 8795213412905779 / 2 ^ 43)] ∧
    (8795213412905779 / 2 ^ 43 : ℚ) ≠ 1000 - 3602879701896397 / 2 ^ 55 ∧
    (3602879701896397 / 2 ^ 55 : ℚ) + 8795213412905779 / 2 ^ 43 < 1000 := by
  have hd : hideDelay tenthReply = 8795213412905779 / 2 ^ 43 := by
    simp only [hideDelay, tenthReply]
    rw [if_pos (by norm_num), doubleSub_tenth]
  refine ⟨tenth_is_a_double, ?_, by norm_num, by norm_num⟩
  rw [timers_after_reply (fun _ => none) tenthReply samplePage .callstackStats rfl, hd]

/-- C9 (amended): a reply to one of the three timed queries sets one timer
for its loading indicator; the delay is `0` without `dur` or with
`dur ≥ 1000`, and below that the double nearest to `1000 - dur`, which is
`1000 - dur` itself whenever that difference is a double; so for `dur ≥ 0`
it lies in `[0, 1000]` with `dur + delay ≥ 1000 - 2^-44`; and apart from the
timer, what the handler does is the same for every `dur`. -/
theorem hide_delay_of_reply (strToNum : String → JSNum) (r : Reply Res) (p : Page)
    (img : LoadingImg) (himg : loadingImgOf r.action = some img) :
    (∃ delay, (worker_onmessage strToNum r p).page.timers = p.timers ++ [(img, delay)] ∧
      (r.dur = none → delay = 0) ∧
      ∀ dur, r.dur = some dur →
        (1000 ≤ dur → delay = 0) ∧
        (dur < 1000 → delay = roundToDouble (1000 - dur)) ∧
        (dur < 1000 → (∃ n : ℤ, (1000 - dur) / 2 ^ ulpExponent (1000 - dur) = n) →
          delay = 1000 - dur) ∧
        (0 ≤ dur → 0 ≤ delay ∧ delay ≤ 1000 ∧ 1000 - 1 / 2 ^ 44 ≤ dur + delay)) ∧
    ∀ dur2 : Option ℚ,
      (worker_onmessage strToNum { r with dur := dur2 } p).threw
        = (worker_onmessage strToNum r p).threw ∧
      { (worker_onmessage strToNum { r with dur := dur2 } p).page with timers := [] }
        = { (worker_onmessage strToNum r p).page with timers := [] } :=
  ⟨⟨hideDelay r, timers_after_reply strToNum r p img himg, hideDelay_values r⟩,
    reply_effect_without_dur strToNum r p img himg⟩

/-- C9 (amended), at the sample reply that reports 250 ms: the difference
`750` is a double, and the indicator is hidden after 750 ms. -/
theorem hide_delay_of_reply_witness :
    ∃ delay, (worker_onmessage (fun _ => none) sampleStatsReply samplePage).page.timers
        = samplePage.timers ++ [(.callstackStats, delay)] ∧
      (sampleStatsReply.dur = none → delay = 0) ∧
      ∀ dur, sampleStatsReply.dur = some dur →
        (1000 ≤ dur → delay = 0) ∧
        (dur < 1000 → delay = roundToDouble (1000 - dur)) ∧
        (dur < 1000 → (∃ n : ℤ, (1000 - dur) / 2 ^ ulpExponent (1000 - dur) = n) →
          delay = 1000 - dur) ∧
        (0 ≤ dur → 0 ≤ delay ∧ delay ≤ 1000 ∧ 1000 - 1 / 2 ^ 44 ≤ dur + delay) :=
  (hide_delay_of_reply (fun _ => none) sampleStatsReply samplePage .callstackStats rfl).1

/-! ### The statistics table -/

theorem staysBefore_compareRows (strToNum : String → JSNum) (a b : List Cell) (qa qb : ℚ)
    (ha : numAt 4 a = some qa) (hb : numAt 4 b = some qb) :
    staysBefore (compareRows strToNum) a b ↔ qb ≤ qa := by
  have key : ∀ (row : List Cell) (q : ℚ), numAt 4 row = some q →
      toNumber strToNum (row.get? 4) = some q := by
    intro row q h
    unfold numAt at h
    split at h
    · next q2 heq =>
      simp only [Option.some.injEq] at h
      rw [heq, ← h]
      rfl
    · exact absurd h (by simp)
  rw [staysBefore, compareRows, key a qa ha, key b qb hb]
  simp [jsSub]

/-- C4: with `total` as the third header the rows are ordered by their
fifth column (`min`): two rows that arrive in non-increasing order of `total`
(30, 10) are displayed in increasing order of `total` (10, 30). -/
theorem sort_uses_fifth_column (strToNum : String → JSNum) :
    indexOf shortStats.hdrs "total" = 2 ∧
    shortStats.rows.map (numAt 2) = [some 30, some 10] ∧
    (sortedRows strToNum shortStats).map (numAt 2) = [some 10, some 30] ∧
    (sortedRows strToNum shortStats).map groupKey = [some (.str "f"), some (.str "g")] := by
  have h1 : indexOf shortStats.hdrs "total" = 2 := by decide
  have hfg : ¬ staysBefore (compareRows strToNum)
      [.str "g", .num 2, .num 30, .num 15, .num 5, .num 25]
      [.str "f", .num 1, .num 10, .num 10, .num 10, .num 10] := by
    rw [staysBefore_compareRows strToNum
      [.str "g", .num 2, .num 30, .num 15, .num 5, .num 25]
      [.str "f", .num 1, .num 10, .num 10, .num 10, .num 10] 5 10 rfl rfl]
    norm_num
  have hs : sortedRows strToNum shortStats =
      [[.str "f", .num 1, .num 10, .num 10, .num 10, .num 10],
       [.str "g", .num 2, .num 30, .num 15, .num 5, .num 25]] := by
    simp only [sortedRows, h1]
    simp [Array_sort, shortStats, List.insertionSort, List.orderedInsert, hfg]
  refine ⟨h1, by simp [shortStats, numAt], ?_, ?_⟩
  · rw [hs]
    simp [numAt]
  · rw [hs]
    simp [groupKey]

theorem staysBefore_iff_rowTotal (strToNum : String → JSNum) (l : List (List Cell))
    (hnum : ∀ row ∈ l, ∃ q, numAt 4 row = some q) :
    ∀ a ∈ l, ∀ b ∈ l, staysBefore (compareRows strToNum) a b ↔ rowTotal a ≥ rowTotal b := by
  intro a ha b hb
  obtain ⟨qa, hqa⟩ := hnum a ha
  obtain ⟨qb, hqb⟩ := hnum b hb
  rw [staysBefore_compareRows strToNum a b qa qb hqa hqb]
  simp [rowTotal, hqa, hqb]

theorem Array_sort_perm {α : Type} (cmp : α → α → JSNum) (l : List α) :
    (Array_sort cmp l).Perm l :=
  List.perm_insertionSort _ l

theorem Array_sort_rows_sorted (strToNum : String → JSNum) (l : List (List Cell))
    (hnum : ∀ row ∈ l, ∃ q, numAt 4 row = some q) :
    (Array_sort (compareRows strToNum) l).Pairwise (fun a b => rowTotal b ≤ rowTotal a) := by
  have hmap := List.map_insertionSort (staysBefore (compareRows strToNum))
    (fun x y : ℚ => x ≥ y) rowTotal l (staysBefore_iff_rowTotal strToNum l hnum)
  have hs : List.Sorted (fun x y : ℚ => x ≥ y)
      ((Array_sort (compareRows strToNum) l).map rowTotal) := by
    rw [Array_sort, hmap]
    exact List.sorted_insertionSort _ _
  exact List.pairwise_map.mp hs

theorem Array_sort_rows_stable (strToNum : String → JSNum) (t : ℚ) :
    ∀ l : List (List Cell), (∀ row ∈ l, ∃ q, numAt 4 row = some q) →
      (Array_sort (compareRows strToNum) l).filter (fun r => decide (rowTotal r = t))
        = l.filter (fun r => decide (rowTotal r = t)) := by
  intro l
  induction l with
  | nil => intro _; rfl
  | cons a l ih =>
    intro hnum
    have hl : ∀ row ∈ l, ∃ q, numAt 4 row = some q :=
      fun row h => hnum row (List.mem_cons_of_mem _ h)
    have ih2 := ih hl
    unfold Array_sort at ih2 ⊢
    rw [List.insertionSort, List.orderedInsert_eq_take_drop, List.filter_append]
    have hsplit := List.takeWhile_append_dropWhile
      (fun b => decide ¬ staysBefore (compareRows strToNum) a b)
      (List.insertionSort (staysBefore (compareRows strToNum)) l)
    have hfil := congrArg (List.filter fun r => decide (rowTotal r = t)) hsplit
    rw [List.filter_append, ih2] at hfil
    by_cases hat : rowTotal a = t
    · have hempty : (List.takeWhile (fun b => decide ¬ staysBefore (compareRows strToNum) a b)
          (List.insertionSort (staysBefore (compareRows strToNum)) l)).filter
            (fun r => decide (rowTotal r = t)) = [] := by
        rw [List.filter_eq_nil_iff]
        intro b hb
        have hmem : b ∈ l :=
          (List.mem_insertionSort _).mp (List.takeWhile_subset _ hb)
        have hnot := List.mem_takeWhile_imp hb
        simp only [decide_eq_true_eq] at hnot
        rw [staysBefore_iff_rowTotal strToNum (a :: l) hnum a (List.mem_cons_self _ _) b
          (List.mem_cons_of_mem _ hmem)] at hnot
        simp only [decide_eq_true_eq]
        intro hbt
        apply hnot
        rw [hat, hbt]
      rw [hempty] at hfil ⊢
      simp only [List.nil_append] at hfil ⊢
      rw [List.filter_cons_of_pos (by simpa using hat), hfil,
        List.filter_cons_of_pos (by simpa using hat)]
    · rw [List.filter_cons_of_neg (by simpa using hat), hfil,
        List.filter_cons_of_neg (by simpa using hat)]

theorem rowTotal_groupRow (name : String) (t : ℚ) : rowTotal (groupRow name t) = t := rfl

theorem sorted_rows_split (t : ℚ) : ∀ s : List (List Cell),
    s.Pairwise (fun a b => rowTotal b ≤ rowTotal a) →
    s = s.filter (fun r => decide (t < rowTotal r)) ++ s.filter (fun r => decide (rowTotal r ≤ t)) := by
  intro s
  induction s with
  | nil => intro _; rfl
  | cons a s ih =>
    intro hs
    have hs2 := List.pairwise_cons.mp hs
    by_cases hat : t < rowTotal a
    · rw [List.filter_cons_of_pos (by simpa using hat),
        List.filter_cons_of_neg (by simpa using hat), List.cons_append, ← ih hs2.2]
    · have hle : rowTotal a ≤ t := not_lt.mp hat
      have h1 : s.filter (fun r => decide (t < rowTotal r)) = [] := by
        rw [List.filter_eq_nil_iff]
        intro b hb
        have := hs2.1 b hb
        simp only [decide_eq_true_eq, not_lt]
        linarith
      have h2 : s.filter (fun r => decide (rowTotal r ≤ t)) = s := by
        rw [List.filter_eq_self]
        intro b hb
        have := hs2.1 b hb
        simp only [decide_eq_true_eq]
        linarith
      rw [List.filter_cons_of_neg (by simpa using hat),
        List.filter_cons_of_pos (by simpa using hle), h1, h2, List.nil_append]

theorem sorted_rowsABCD (s : List (List Cell)) (hp : s.Perm rowsABCD)
    (hs : s.Pairwise (fun a b => rowTotal b ≤ rowTotal a)) :
    s = s.filter (fun r => decide (rowTotal r = 12)) ++ [groupRow "A" 5, groupRow "D" 1] := by
  have hmem : ∀ r ∈ s, rowTotal r = 5 ∨ rowTotal r = 12 ∨ rowTotal r = 1 := by
    intro r hr
    have h := hp.mem_iff.mp hr
    simp only [rowsABCD, List.mem_cons, List.mem_singleton, List.not_mem_nil, or_false] at h
    rcases h with h | h | h | h <;> subst h <;> simp [rowTotal_groupRow]
  have single : ∀ (t : ℚ) (row : List Cell),
      rowsABCD.filter (fun r => decide (rowTotal r = t)) = [row] →
      s.filter (fun r => decide (rowTotal r = t)) = [row] := by
    intro t row h
    have := hp.filter (fun r => decide (rowTotal r = t))
    rw [h] at this
    exact List.perm_singleton.mp this
  have hA : s.filter (fun r => decide (rowTotal r = 5)) = [groupRow "A" 5] := by
    apply single
    simp [rowsABCD, List.filter, rowTotal_groupRow]
  have hD : s.filter (fun r => decide (rowTotal r = 1)) = [groupRow "D" 1] := by
    apply single
    simp [rowsABCD, List.filter, rowTotal_groupRow]
  have e1 := sorted_rows_split 5 s hs
  have hu : (s.filter (fun r => decide (rowTotal r ≤ 5))).Pairwise
      (fun a b => rowTotal b ≤ rowTotal a) := hs.sublist (List.filter_sublist _)
  have e2 := sorted_rows_split 1 _ hu
  rw [List.filter_filter, List.filter_filter] at e2
  have c12 : s.filter (fun r => decide (5 < rowTotal r))
      = s.filter (fun r => decide (rowTotal r = 12)) := by
    apply List.filter_congr
    intro r hr
    rcases hmem r hr with h | h | h <;> rw [h] <;> norm_num
  have c5 : s.filter (fun r => decide (1 < rowTotal r) && decide (rowTotal r ≤ 5))
      = s.filter (fun r => decide (rowTotal r = 5)) := by
    apply List.filter_congr
    intro r hr
    rcases hmem r hr with h | h | h <;> rw [h] <;> norm_num
  have c1 : s.filter (fun r => decide (rowTotal r ≤ 1) && decide (rowTotal r ≤ 5))
      = s.filter (fun r => decide (rowTotal r = 1)) := by
    apply List.filter_congr
    intro r hr
    rcases hmem r hr with h | h | h <;> rw [h] <;> norm_num
  rw [c5, c1, hA, hD] at e2
  rw [c12, e2] at e1
  exact e1

/-- C5 (as stated, refuted): with the four groups arriving in the order
`C, B, A, D` (totals 12, 12, 5, 1) the rows are displayed in the order
`C, B, A, D`, not `B, C, A, D`. -/
theorem tied_rows_not_reordered :
    tiedStats.rows.Perm rowsABCD ∧
    (sortedRows (fun _ => none) tiedStats).map groupKey
      = [some (.str "C"), some (.str "B"), some (.str "A"), some (.str "D")] ∧
    (sortedRows (fun _ => none) tiedStats).map groupKey
      ≠ [some (.str "B"), some (.str "C"), some (.str "A"), some (.str "D")] := by
  have hp : tiedStats.rows.Perm rowsABCD := by
    simp only [tiedStats, rowsABCD]
    exact (List.Perm.swap _ _ _).trans
      ((List.Perm.cons _ (List.Perm.swap _ _ _)).trans (List.Perm.swap _ _ _))
  have hnum : ∀ row ∈ tiedStats.rows, ∃ q, numAt 4 row = some q := by
    intro row h
    simp only [tiedStats, List.mem_cons, List.mem_singleton, List.not_mem_nil, or_false] at h
    rcases h with h | h | h | h <;> subst h <;> exact ⟨_, rfl⟩
  have hidx : indexOf tiedStats.hdrs "total" = 4 := by decide
  have hsort : sortedRows (fun _ => none) tiedStats
      = Array_sort (compareRows fun _ => none) tiedStats.rows := by
    simp [sortedRows, hidx]
  have h := sorted_rowsABCD _ ((Array_sort_perm _ _).trans hp)
    (Array_sort_rows_sorted (fun _ => none) _ hnum)
  rw [Array_sort_rows_stable (fun _ => none) 12 _ hnum] at h
  rw [← hsort] at h
  have hf : tiedStats.rows.filter (fun r => decide (rowTotal r = 12))
      = [groupRow "C" 12, groupRow "B" 12] := by
    simp [tiedStats, List.filter, rowTotal_groupRow]
  rw [hf] at h
  refine ⟨hp, ?_, ?_⟩
  · rw [h]
    rfl
  · rw [h]
    decide

/-- C5 (amended): when `total` is the fifth header and every row holds a
number in that column, the displayed rows are the data rows in the order
`sort` leaves them: a permutation of the input in non-increasing order of
`total` in which rows of equal total keep their arrival order; for the groups
`A, B, C, D` with totals 5, 12, 12, 1 that is `B` and `C` as they arrived,
then `A`, then `D`. -/
theorem equal_totals_keep_arrival_order (strToNum : String → JSNum) (d : StatsData) (p : Page)
    (hidx : indexOf d.hdrs "total" = 4)
    (hnum : ∀ row ∈ d.rows, ∃ q, numAt 4 row = some q) :
    (updateCallstackStatsTable strToNum (some (.stats d)) p).page.callstackStatsContainer
      = p.callstackStatsContainer ++
          [{ head := d.hdrs, body := (sortedRows strToNum d).map renderRow }] ∧
    (sortedRows strToNum d).Perm d.rows ∧
    (sortedRows strToNum d).Pairwise (fun a b => rowTotal b ≤ rowTotal a) ∧
    (∀ t : ℚ, (sortedRows strToNum d).filter (fun r => decide (rowTotal r = t))
      = d.rows.filter (fun r => decide (rowTotal r = t))) ∧
    (d.rows.Perm rowsABCD →
      sortedRows strToNum d
        = d.rows.filter (fun r => decide (rowTotal r = 12)) ++
            [groupRow "A" 5, groupRow "D" 1]) := by
  have hsort : sortedRows strToNum d = Array_sort (compareRows strToNum) d.rows := by
    simp [sortedRows, hidx]
  refine ⟨rfl, ?_, ?_, ?_, ?_⟩
  · rw [hsort]
    exact Array_sort_perm _ _
  · rw [hsort]
    exact Array_sort_rows_sorted strToNum _ hnum
  · intro t
    rw [hsort]
    exact Array_sort_rows_stable strToNum t _ hnum
  · intro hp
    have h := sorted_rowsABCD _ ((Array_sort_perm (compareRows strToNum) d.rows).trans hp)
      (Array_sort_rows_sorted strToNum _ hnum)
    rw [Array_sort_rows_stable strToNum 12 _ hnum, ← hsort] at h
    exact h

/-- C5 (amended), at the four groups arriving in the order `C, B, A, D`. -/
theorem equal_totals_keep_arrival_order_witness :
    (sortedRows (fun _ => none) tiedStats).Perm tiedStats.rows ∧
    (sortedRows (fun _ => none) tiedStats).Pairwise (fun a b => rowTotal b ≤ rowTotal a) :=
  ⟨(equal_totals_keep_arrival_order (fun _ => none) tiedStats samplePage (by decide)
      (by
        intro row h
        simp only [tiedStats, List.mem_cons, List.mem_singleton, List.not_mem_nil, or_false] at h
        rcases h with h | h | h | h <;> subst h <;> exact ⟨_, rfl⟩)).2.1,
   (equal_totals_keep_arrival_order (fun _ => none) tiedStats samplePage (by decide)
      (by
        intro row h
        simp only [tiedStats, List.mem_cons, List.mem_singleton, List.not_mem_nil, or_false] at h
        rcases h with h | h | h | h <;> subst h <;> exact ⟨_, rfl⟩)).2.2.1⟩

/-! ### Staging and the trace-info query -/

theorem writeFiles_written {σ : Type} (writeFile : σ → String → List Nat → Option σ) :
    ∀ (files : List StagedFile) (fs : σ) (done : List StagedFile),
      (writeFiles writeFile fs done files).threw = false →
      (writeFiles writeFile fs done files).written = done ++ files := by
  intro files
  induction files with
  | nil => intro fs done _; simp [writeFiles]
  | cons f rest ih =>
    intro fs done h
    unfold writeFiles at h ⊢
    cases hw : writeFile fs f.file f.data with
    | none => simp [hw] at h
    | some fs1 =>
      simp only [hw] at h ⊢
      rw [ih fs1 (done ++ [f]) h]
      simp

theorem worker_write_files_reply {σ ρ : Type} (H : Host σ ρ) (fs : σ) (t0 t1 : ℚ) (m : Request)
    (hm : m.action = .WRITE_FILES) :
    ∀ r ∈ (onmessage H fs t0 t1 m).posted,
      (onmessage H fs t0 t1 m).posted = [r] ∧
      r.action = .WRITE_FILES ∧ r.rc = some 0 ∧ r.dir = m.dir ∧
      m.files = some (onmessage H fs t0 t1 m).written := by
  intro r hr
  simp only [onmessage, hm] at hr ⊢
  cases hf : m.files with
  | none => simp [hf] at hr
  | some files =>
    simp only [hf] at hr ⊢
    by_cases ht : (writeFiles H.FS_writeFile ((H.FS_mkdir fs m.dir).getD fs) [] files).threw = true
    · simp [ht] at hr
    · simp only [ht] at hr ⊢
      simp only [Bool.false_eq_true, if_false, List.mem_singleton] at hr ⊢
      subst hr
      have hw := writeFiles_written H.FS_writeFile files ((H.FS_mkdir fs m.dir).getD fs) []
        (by simpa using ht)
      simp [hw]

@[simp] theorem setSelect_posted (p : Page) (id : SelectId) (s : Select) :
    (p.setSelect id s).posted = p.posted := by
  cases id <;> rfl

theorem andThen_posted (r : Ran) (g : Page → Ran)
    (hg : ∀ q, (g q).page.posted = q.posted) :
    (r.andThen g).page.posted = r.page.posted := by
  unfold Ran.andThen
  split
  · exact hg _
  · rfl

theorem resetSelector_posted (id : SelectId) (p : Page) :
    (resetSelector id p).page.posted = p.posted := by
  unfold resetSelector
  simp only []
  split <;> simp

theorem disableAndReset_posted (id : SelectId) (p : Page) :
    (disableAndReset id p).page.posted = p.posted := by
  rw [disableAndReset, resetSelector_posted, setSelect_posted]

theorem onNewTraceLoadedPre_posted (p : Page) :
    (onNewTraceLoadedPre p).page.posted = p.posted := by
  unfold onNewTraceLoadedPre
  simp only []
  rw [andThen_posted, disableAndReset_posted]
  intro q
  rw [andThen_posted, disableAndReset_posted]
  intro q
  rw [andThen_posted, disableAndReset_posted]
  intro q
  rw [andThen_posted, disableAndReset_posted]
  intro q
  rw [andThen_posted, disableAndReset_posted]
  intro q
  rw [andThen_posted, disableAndReset_posted]
  intro q
  rfl

theorem foldl_posted {α : Type} (g : Page → α → Page) (hg : ∀ q a, (g q a).posted = q.posted) :
    ∀ (l : List α) (p : Page), (l.foldl g p).posted = p.posted := by
  intro l
  induction l with
  | nil => intro p; rfl
  | cons a l ih => intro p; rw [List.foldl_cons, ih, hg]

theorem updateFieldOptions_posted (eventName : String) (t l : SelectId) (p : Page) :
    (updateFieldOptions eventName t l p).page.posted = p.posted := by
  unfold updateFieldOptions
  split
  · split
    · rfl
    · rw [andThen_posted, resetSelector_posted]
      intro q
      rw [andThen_posted, resetSelector_posted]
      intro q2
      simp only [setSelect_posted]
      apply foldl_posted
      intro q3 a
      simp [addFieldOption]
  · rfl

theorem updateCallstackButtons_posted (p : Page) :
    (updateCallstackButtons p).posted = p.posted := by
  unfold updateCallstackButtons
  rfl

theorem updateEntryFieldOptions_posted (value : String) (p : Page) :
    (updateEntryFieldOptions value p).page.posted = p.posted := by
  rw [updateEntryFieldOptions, andThen_posted, updateFieldOptions_posted]
  intro q
  exact updateCallstackButtons_posted q

theorem updateExitFieldOptions_posted (value : String) (p : Page) :
    (updateExitFieldOptions value p).page.posted = p.posted := by
  rw [updateExitFieldOptions, andThen_posted, updateFieldOptions_posted]
  intro q
  exact updateCallstackButtons_posted q

theorem updateTraceInfo_posted (data : Option Attr) (dir : JSStr) (p : Page) :
    (updateTraceInfo data dir p).page.posted = p.posted := by
  unfold updateTraceInfo
  simp only []
  split <;> rfl

theorem updateEventOptions_posted (events : List EventInfo) (p : Page) :
    (updateEventOptions events p).page.posted = p.posted := by
  have h1 : (events.foldl addEventOption p).posted = p.posted :=
    foldl_posted addEventOption (fun _ _ => rfl) events p
  unfold updateEventOptions
  simp only []
  split
  · rw [andThen_posted, updateEntryFieldOptions_posted]
    · exact h1
    · intro q
      rw [andThen_posted, updateExitFieldOptions_posted]
      intro q2
      exact updateCallstackButtons_posted _
  · exact h1

theorem worker_onmessage_posted (strToNum : String → JSNum) (r : Reply Res) (p : Page) :
    (worker_onmessage strToNum r p).page.posted =
      p.posted ++ (if r.action = .WRITE_FILES ∧ r.rc = some 0
        then [{ action := .GET_TRACE_INFO, dir := r.dir }] else []) := by
  unfold worker_onmessage
  cases hact : r.action <;> simp only [reduceCtorEq, false_and, true_and, if_false,
    List.append_nil]
  · split
    · split
      · rfl
      · rw [andThen_posted _ _ (updateEventOptions_posted _), updateTraceInfo_posted]
        rfl
      · rw [updateTraceInfo_posted]
        rfl
    · rfl
  · split
    · unfold updateChart
      simp only []
      split <;> rfl
    · rfl
  · split
    · unfold updateCallstackStatsTable
      split <;> rfl
    · rfl
  · split <;> rfl
  · split
    · rfl
    · simp

theorem dirInputChange_posted (files : List InputFile) (p : Page) :
    (dirInputChange files p).page.posted = p.posted := by
  unfold dirInputChange
  simp only []
  rw [andThen_posted, onNewTraceLoadedPre_posted]
  intro q
  split <;> rfl

theorem selectHandler_posted (id : SelectId) (p : Page) :
    (selectHandler id p).page.posted = p.posted := by
  cases id <;> simp only [selectHandler]
  · exact updateEntryFieldOptions_posted _ _
  · exact updateExitFieldOptions_posted _ _
  all_goals exact updateCallstackButtons_posted _

theorem step_posted (strToNum : String → JSNum) (p : Page) (ev : Event) :
    ∃ new, (step strToNum p ev).posted = p.posted ++ new ∧
      ∀ q ∈ new, q.action = .GET_TRACE_INFO →
        (ev = .exampleClick ∧ q.dir = some exampleTrace) ∨
        ∃ r, ev = .message r ∧ r.action = .WRITE_FILES ∧ r.rc = some 0 ∧ r.dir = q.dir := by
  cases ev with
  | dirChange files =>
    exact ⟨[], by simp [step, dirInputChange_posted], by simp⟩
  | exampleClick =>
    by_cases ht : (onNewTraceLoadedPre { p with isExampleLoaded := true }).threw = none
    · refine ⟨[{ action := .GET_TRACE_INFO, dir := some exampleTrace }], ?_, ?_⟩
      · simp only [step, exampleInputClick, Ran.andThen, ht, runTraceInfo]
        rw [onNewTraceLoadedPre_posted]
      · intro q hq _
        simp only [List.mem_singleton] at hq
        subst hq
        exact Or.inl ⟨rfl, rfl⟩
    · refine ⟨[], ?_, by simp⟩
      simp only [step, exampleInputClick, Ran.andThen]
      split
      · next h => exact absurd h ht
      · rw [onNewTraceLoadedPre_posted]
        simp
  | runEventTypes =>
    simp only [step]
    split
    · exact ⟨[], by simp, by simp⟩
    · unfold runEventTypesClick
      simp only []
      split
      · exact ⟨[], by simp, by simp⟩
      · refine ⟨[_], rfl, ?_⟩
        intro q hq ha
        simp only [List.mem_singleton] at hq
        subst hq
        simp at ha
  | runCallstackStats =>
    simp only [step]
    split
    · exact ⟨[], by simp, by simp⟩
    · unfold runCallstackStatsClick
      simp only []
      split
      · exact ⟨[], by simp, by simp⟩
      · refine ⟨[_], rfl, ?_⟩
        intro q hq ha
        simp only [List.mem_singleton] at hq
        subst hq
        simp at ha
  | runFlamegraph =>
    simp only [step]
    split
    · exact ⟨[], by simp, by simp⟩
    · unfold runFlamegraphClick
      simp only []
      split
      · exact ⟨[], by simp, by simp⟩
      · refine ⟨[_], rfl, ?_⟩
        intro q hq ha
        simp only [List.mem_singleton] at hq
        subst hq
        simp at ha
  | message r =>
    refine ⟨_, worker_onmessage_posted strToNum r p, ?_⟩
    intro q hq _
    split at hq
    · next h =>
      simp only [List.mem_singleton] at hq
      subst hq
      exact Or.inr ⟨r, rfl, h.1, h.2, rfl⟩
    · simp at hq
  | readsDone k =>
    simp only [step]
    split
    · exact ⟨[], by simp, by simp⟩
    · refine ⟨[_], rfl, ?_⟩
      intro q hq ha
      simp only [List.mem_singleton] at hq
      subst hq
      simp [dumpFilesToFS] at ha
  | readsFailed k => exact ⟨[], by simp [step], by simp⟩
  | timeout k =>
    simp only [step]
    split
    · exact ⟨[], by simp, by simp⟩
    · exact ⟨[], by simp [setLoading], by simp⟩
  | selectChange id i =>
    simp only [step]
    split
    · exact ⟨[], by simp, by simp⟩
    · exact ⟨[], by simp [selectHandler_posted], by simp⟩

/-! ### The run buttons while a trace is awaited -/

theorem select_of_watched (p q : Page) (h : watched q = watched p) (id : SelectId) :
    q.select id = p.select id := by
  simp only [watched, Prod.mk.injEq] at h
  obtain ⟨_, _, _, _, h1, h2, h3, h4, h5, h6⟩ := h
  cases id <;> simp [Page.select, *]

theorem awaiting_of_watched (p q : Page) (h : watched q = watched p) (hp : Awaiting p) :
    Awaiting q := by
  have hs := select_of_watched p q h
  simp only [watched, Prod.mk.injEq] at h
  obtain ⟨h0, hb1, hb2, hb3, _⟩ := h
  obtain ⟨⟨a0, a1, a2, a3⟩, hsel⟩ := hp
  refine ⟨⟨by rw [h0, a0], by rw [hb1, a1], by rw [hb2, a2], by rw [hb3, a3]⟩, ?_⟩
  rcases hsel with hall | ⟨id, hid⟩
  · exact Or.inl fun id => by rw [hs id]; exact hall id
  · exact Or.inr ⟨id, by rw [hs id]; exact hid⟩

theorem disableAndReset_effect (id : SelectId) (p : Page) :
    (disableAndReset id p).page.traceInfo = p.traceInfo ∧
    (disableAndReset id p).page.runEventTypesDisabled = p.runEventTypesDisabled ∧
    (disableAndReset id p).page.runCallstackStatsDisabled = p.runCallstackStatsDisabled ∧
    (disableAndReset id p).page.runFlamegraphDisabled = p.runFlamegraphDisabled ∧
    (∀ id2, id2 ≠ id → (disableAndReset id p).page.select id2 = p.select id2) ∧
    (((disableAndReset id p).threw = none ∧
        ((disableAndReset id p).page.select id).disabled = true) ∨
      ((disableAndReset id p).threw ≠ none ∧
        ((disableAndReset id p).page.select id).childNodes = [])) := by
  unfold disableAndReset resetSelector
  simp only []
  split
  · refine ⟨?_, ?_, ?_, ?_, ?_, Or.inr ⟨by simp, ?_⟩⟩
    · cases id <;> rfl
    · cases id <;> rfl
    · cases id <;> rfl
    · cases id <;> rfl
    · intro id2 h
      simp [select_setSelect, h]
    · next heq =>
      simpa [select_setSelect] using heq
  · refine ⟨?_, ?_, ?_, ?_, ?_, Or.inl ⟨rfl, ?_⟩⟩
    · cases id <;> rfl
    · cases id <;> rfl
    · cases id <;> rfl
    · cases id <;> rfl
    · intro id2 h
      simp [select_setSelect, h]
    · simp [select_setSelect]

theorem awaiting_after_reset (id : SelectId) (S : List SelectId) (p : Page) (k : Page → Ran)
    (hb : ButtonsOff p) (hS : ∀ i ∈ S, (p.select i).disabled = true)
    (hk : ∀ q, ButtonsOff q → (∀ i ∈ id :: S, (q.select i).disabled = true) →
      Awaiting (k q).page) :
    Awaiting ((disableAndReset id p).andThen k).page := by
  obtain ⟨e0, e1, e2, e3, hother, hthis⟩ := disableAndReset_effect id p
  obtain ⟨b0, b1, b2, b3⟩ := hb
  have hb2 : ButtonsOff (disableAndReset id p).page :=
    ⟨by rw [e0, b0], by rw [e1, b1], by rw [e2, b2], by rw [e3, b3]⟩
  rcases hthis with ⟨hok, hdis⟩ | ⟨hthrew, hempty⟩
  · simp only [Ran.andThen, hok]
    apply hk _ hb2
    intro i hi
    by_cases hid : i = id
    · rw [hid]
      exact hdis
    · rw [hother i hid]
      simp only [List.mem_cons] at hi
      rcases hi with hi | hi
      · exact absurd hi hid
      · exact hS i hi
  · have hr : (disableAndReset id p).andThen k = disableAndReset id p := by
      unfold Ran.andThen
      split
      · next h => exact absurd h hthrew
      · rfl
    rw [hr]
    exact ⟨hb2, Or.inr ⟨id, hempty⟩⟩

theorem awaiting_after_pre (p : Page) : Awaiting (onNewTraceLoadedPre p).page := by
  unfold onNewTraceLoadedPre
  simp only []
  apply awaiting_after_reset .entry [] _ _ ⟨rfl, rfl, rfl, rfl⟩ (by simp)
  intro q2 hb2 hs2
  apply awaiting_after_reset .exit _ _ _ hb2 hs2
  intro q3 hb3 hs3
  apply awaiting_after_reset .entryTrack _ _ _ hb3 hs3
  intro q4 hb4 hs4
  apply awaiting_after_reset .exitTrack _ _ _ hb4 hs4
  intro q5 hb5 hs5
  apply awaiting_after_reset .entryLabel _ _ _ hb5 hs5
  intro q6 hb6 hs6
  apply awaiting_after_reset .exitLabel _ _ _ hb6 hs6
  intro q7 hb7 hs7
  apply awaiting_of_watched q7 _ rfl
  refine ⟨hb7, Or.inl ?_⟩
  intro id
  apply hs7
  cases id <;> simp

theorem awaiting_andThen (r : Ran) (k : Page → Ran) (hr : Awaiting r.page)
    (hk : ∀ q, Awaiting q → Awaiting (k q).page) : Awaiting (r.andThen k).page := by
  unfold Ran.andThen
  split
  · exact hk _ hr
  · exact hr

theorem value_of_no_options (s : Select) (h : s.childNodes = []) : s.value = "" := by
  simp [Select.value, Select.options, h]

theorem updateCallstackButtons_select (q : Page) (i : SelectId) :
    (updateCallstackButtons q).select i = q.select i := by
  cases i <;> simp only [updateCallstackButtons, Page.select]

theorem awaiting_selectHandler (q : Page) (id x : SelectId) (hb : ButtonsOff q)
    (hx : (q.select x).childNodes = []) : Awaiting (selectHandler id q).page := by
  have hq : Awaiting q := ⟨hb, Or.inr ⟨x, hx⟩⟩
  have hthrow : ∀ (v : String) (t lab : SelectId),
      updateFieldOptions v t lab q = { page := q, threw := some .TypeError } := by
    intro v t lab
    unfold updateFieldOptions
    rw [hb.1]
  have hbtn : Awaiting (updateCallstackButtons q) := by
    have hflag := callstackButtons_flags q
    have hx3 : ((updateCallstackButtons q).select x).childNodes = [] := by
      rw [updateCallstackButtons_select]
      exact hx
    have hd : (updateCallstackButtons q).runCallstackStatsDisabled = true :=
      hflag.2.mpr ⟨x, value_of_no_options _ hx3⟩
    refine ⟨⟨?_, ?_, hd, ?_⟩, Or.inr ⟨x, hx3⟩⟩
    · unfold updateCallstackButtons
      exact hb.1
    · unfold updateCallstackButtons
      exact hb.2.1
    · rw [← hflag.1]
      exact hd
  cases id
  case entry =>
    simp only [selectHandler, updateEntryFieldOptions]
    rw [hthrow]
    exact hq
  case exit =>
    simp only [selectHandler, updateExitFieldOptions]
    rw [hthrow]
    exact hq
  all_goals exact hbtn

theorem awaiting_selectChange (p : Page) (id : SelectId) (l : List ChildNode)
    (hp : Awaiting p) (hen : (p.select id).disabled = false)
    (hne : (p.select id).childNodes ≠ []) :
    Awaiting (selectHandler id
      (p.setSelect id { p.select id with childNodes := l })).page := by
  obtain ⟨⟨a0, a1, a2, a3⟩, hsel⟩ := hp
  obtain ⟨x, hx⟩ : ∃ x, (p.select x).childNodes = [] := by
    rcases hsel with hall | h
    · rw [hall id] at hen
      exact absurd hen (by simp)
    · exact h
  have hxid : x ≠ id := by
    intro h
    rw [h] at hx
    exact hne hx
  have hx2 : ((p.setSelect id { p.select id with childNodes := l }).select x).childNodes = [] := by
    rw [select_setSelect, if_neg hxid]
    exact hx
  have hb : ButtonsOff (p.setSelect id { p.select id with childNodes := l }) := by
    cases id <;> exact ⟨a0, a1, a2, a3⟩
  exact awaiting_selectHandler _ id x hb hx2

theorem awaiting_step (strToNum : String → JSNum) (p : Page) (ev : Event)
    (hp : Awaiting p) (hev : isTraceInfoSuccess ev = false) :
    Awaiting (step strToNum p ev) := by
  have w : ∀ q : Page, watched q = watched p → Awaiting q :=
    fun q h => awaiting_of_watched p q h hp
  cases ev with
  | dirChange files =>
    simp only [step, dirInputChange]
    apply awaiting_andThen _ _ (awaiting_after_pre _)
    intro q hq
    split
    · exact hq
    · exact awaiting_of_watched q _ rfl hq
  | exampleClick =>
    simp only [step, exampleInputClick]
    apply awaiting_andThen _ _ (awaiting_after_pre _)
    intro q hq
    exact awaiting_of_watched q _ rfl hq
  | runEventTypes =>
    simp only [step, hp.1.2.1, if_true]
    exact hp
  | runCallstackStats =>
    simp only [step, hp.1.2.2.1, if_true]
    exact hp
  | runFlamegraph =>
    simp only [step, hp.1.2.2.2, if_true]
    exact hp
  | message r =>
    simp only [step]
    unfold worker_onmessage
    cases hact : r.action <;> simp only []
    · have hrc : ¬ r.rc = some 0 := by
        intro h
        simp [isTraceInfoSuccess, hact, h] at hev
      rw [if_neg hrc]
      exact w _ rfl
    · split
      · unfold updateChart
        simp only []
        split <;> exact w _ rfl
      · exact w _ rfl
    · split
      · unfold updateCallstackStatsTable
        split <;> exact w _ rfl
      · exact w _ rfl
    · split <;> exact w _ rfl
    · split <;> exact w _ rfl
    · exact hp
  | readsDone k =>
    simp only [step]
    split
    · exact hp
    · exact w _ rfl
  | readsFailed k => exact w _ rfl
  | timeout k =>
    simp only [step]
    split
    · exact hp
    · exact w _ rfl
  | selectChange id i =>
    simp only [step]
    split
    · exact hp
    · next hg =>
      simp only [not_or, not_le, Bool.not_eq_true] at hg
      apply awaiting_selectChange p id _ hp hg.1
      intro hnil
      rw [hnil] at hg
      simp at hg

theorem awaiting_run (strToNum : String → JSNum) (evs : List Event) :
    ∀ p : Page, Awaiting p → (∀ e ∈ evs, isTraceInfoSuccess e = false) →
      Awaiting (evs.foldl (step strToNum) p) := by
  induction evs with
  | nil => intro p hp _; exact hp
  | cons e evs ih =>
    intro p hp h
    rw [List.foldl_cons]
    apply ih
    · exact awaiting_step strToNum p e hp (h e (List.mem_cons_self _ _))
    · exact fun e2 h2 => h e2 (List.mem_cons_of_mem _ h2)

theorem awaiting_after_dirChange (strToNum : String → JSNum) (p : Page)
    (files : List InputFile) : Awaiting (step strToNum p (.dirChange files)) := by
  simp only [step, dirInputChange]
  apply awaiting_andThen _ _ (awaiting_after_pre _)
  intro q hq
  split
  · exact hq
  · exact awaiting_of_watched q _ rfl hq

theorem stagingExamplePage_eq :
    stagingExamplePage =
      { samplePage with
        dirInputFiles := exampleNamedFiles
        isExampleLoaded := false
        traceInfoStatus := ""
        traceInfoAttributes := []
        traceInfo := none
        eventChartDisplay := "none"
        runEventTypesDisabled := true
        runCallstackStatsDisabled := true
        runFlamegraphDisabled := true
        callstackParamsOpacity := 6 / 10
        entrySelect := { disabled := true, childNodes := [.opt { value := "", innerHTML := "--", selected := true }] }
        exitSelect := { disabled := true, childNodes := [.opt { value := "", innerHTML := "--", selected := true }] }
        entryTrackSelect := { disabled := true, childNodes := [.opt { value := "", innerHTML := "--", selected := true }] }
        exitTrackSelect := { disabled := true, childNodes := [.opt { value := "", innerHTML := "--", selected := true }] }
        entryLabelSelect := { disabled := true, childNodes := [.opt { value := "", innerHTML := "--", selected := true }] }
        exitLabelSelect := { disabled := true, childNodes := [.opt { value := "", innerHTML := "--", selected := true }] }
        eventChart := none
        pendingDumps := [{ dir := "example", files := exampleNamedFiles }] } := by
  unfold stagingExamplePage
  simp only [step, dirInputChange]
  rw [onNewTraceLoadedPre_eq _ _ _ _ _ _ _ _ _ _ _ _ _ rfl rfl rfl rfl rfl rfl]
  rfl

/-- C6 (as stated, refuted): the user has chosen a directory named `example`
and its files are still being read (nothing has been posted to the worker);
a click on the example button posts the trace-info query for `example`, and
that click is not a worker reply: the query is in the worker's inbox while
the worker has handled no request and written no file. -/
theorem example_click_queries_unstaged_dir :
    getInputDir stagingExamplePage = some "example" ∧
    stagingExamplePage.pendingDumps = [{ dir := "example", files := exampleNamedFiles }] ∧
    stagingExamplePage.posted = [] ∧
    (step (fun _ => none) stagingExamplePage .exampleClick).posted
      = [{ action := .GET_TRACE_INFO, dir := some "example" }] ∧
    (exampleRaceMoves.foldl (World.next (fun _ => none) (sampleHost none)) sampleWorld).inbox
      = [{ action := .GET_TRACE_INFO, dir := some "example" }] ∧
    (exampleRaceMoves.foldl (World.next (fun _ => none) (sampleHost none)) sampleWorld).handled
      = [] ∧
    (exampleRaceMoves.foldl (World.next (fun _ => none) (sampleHost none)) sampleWorld).writtenLog
      = [] := by
  have hclick : step (fun _ => none) stagingExamplePage .exampleClick =
      { stagingExamplePage with
        isExampleLoaded := true
        posted := [{ action := .GET_TRACE_INFO, dir := some "example" }] } := by
    rw [stagingExamplePage_eq]
    simp only [step, exampleInputClick]
    rw [onNewTraceLoadedPre_eq _ _ _ _ _ _ _ _ _ _ _ _ _ rfl rfl rfl rfl rfl rfl]
    rfl
  have hworld : exampleRaceMoves.foldl (World.next (fun _ => none) (sampleHost none)) sampleWorld
      = { sampleWorld with
          page := step (fun _ => none) stagingExamplePage .exampleClick
          inbox := newPosts samplePage stagingExamplePage ++
            newPosts stagingExamplePage (step (fun _ => none) stagingExamplePage .exampleClick) } :=
    rfl
  refine ⟨?_, ?_, ?_, ?_, ?_, ?_, ?_⟩
  · rw [stagingExamplePage_eq]
    rfl
  · rw [stagingExamplePage_eq]
  · rw [stagingExamplePage_eq]
    rfl
  · rw [hclick]
  · rw [hworld, hclick, stagingExamplePage_eq]
    rfl
  · rw [hworld]
    rfl
  · rw [hworld]
    rfl

/-! ### The page and the worker together -/

theorem onmessage_reply_action {σ ρ : Type} (H : Host σ ρ) (fs : σ) (t0 t1 : ℚ) (m : Request) :
    ∀ r ∈ (onmessage H fs t0 t1 m).posted, r.action = m.action := by
  intro r hr
  unfold onmessage at hr
  cases hact : m.action <;> simp only [hact] at hr
  · split at hr
    · simp only [List.mem_singleton] at hr
      rw [hr]
    · unfold parseAndPost at hr
      split at hr
      · simp at hr
      · simp only [List.mem_singleton] at hr
        rw [hr]
  · split at hr
    · simp only [List.mem_singleton] at hr
      rw [hr]
    · unfold parseAndPost at hr
      split at hr
      · simp at hr
      · simp only [List.mem_singleton] at hr
        rw [hr]
  · split at hr
    · split at hr
      · simp at hr
      · simp only [List.mem_singleton] at hr
        rw [hr]
    · unfold parseAndPost at hr
      split at hr
      · simp at hr
      · simp only [List.mem_singleton] at hr
        rw [hr]
  · split at hr
    · simp only [List.mem_singleton] at hr
      rw [hr]
    · unfold parseAndPost at hr
      split at hr
      · simp at hr
      · simp only [List.mem_singleton] at hr
        rw [hr]
  · split at hr
    · simp at hr
    · split at hr
      · simp at hr
      · simp only [List.mem_singleton] at hr
        rw [hr]
  · simp at hr

theorem staged_mono {σ : Type} (w w2 : World σ) (dir : JSStr)
    (hh : ∀ m ∈ w.handled, m ∈ w2.handled) (hl : ∀ f ∈ w.writtenLog, f ∈ w2.writtenLog)
    (hs : Staged w dir) : Staged w2 dir := by
  obtain ⟨m, hm, ha, hd, files, hf, hall⟩ := hs
  exact ⟨m, hh m hm, ha, hd, files, hf, fun f h => hl f (hall f h)⟩

theorem newPosts_step (strToNum : String → JSNum) (p : Page) (ev : Event) :
    ∀ q ∈ newPosts p (step strToNum p ev), q.action = .GET_TRACE_INFO →
      (ev = .exampleClick ∧ q.dir = some exampleTrace) ∨
      ∃ r, ev = .message r ∧ r.action = .WRITE_FILES ∧ r.rc = some 0 ∧ r.dir = q.dir := by
  obtain ⟨new, hposted, hnew⟩ := step_posted strToNum p ev
  have hn : newPosts p (step strToNum p ev) = new := by
    rw [newPosts, hposted, List.drop_left]
  rw [hn]
  exact hnew

theorem staged_invariant_next {σ : Type} (strToNum : String → JSNum) (H : Host σ Res)
    (w : World σ) (mv : Move)
    (hin : ∀ q ∈ w.inbox, q.action = .GET_TRACE_INFO → q.dir ≠ some exampleTrace →
      Staged w q.dir)
    (hre : ∀ r ∈ w.replies, r.action = .WRITE_FILES → r.rc = some 0 → Staged w r.dir) :
    (∀ q ∈ (w.next strToNum H mv).inbox, q.action = .GET_TRACE_INFO →
      q.dir ≠ some exampleTrace → Staged (w.next strToNum H mv) q.dir) ∧
    (∀ r ∈ (w.next strToNum H mv).replies, r.action = .WRITE_FILES → r.rc = some 0 →
      Staged (w.next strToNum H mv) r.dir) := by
  have user_case : ∀ e : Event, (∀ r, e ≠ .message r) →
      (∀ q ∈ w.inbox ++ newPosts w.page (step strToNum w.page e),
        q.action = .GET_TRACE_INFO → q.dir ≠ some exampleTrace → Staged w q.dir) := by
    intro e hne q hq ha hd
    rcases List.mem_append.mp hq with h | h
    · exact hin q h ha hd
    · rcases newPosts_step strToNum w.page e q h ha with ⟨_, hex⟩ | ⟨r, hr, _⟩
      · exact absurd hex hd
      · exact absurd hr (hne r)
  cases mv with
  | user e =>
    cases e with
    | message r => exact ⟨hin, hre⟩
    | dirChange files =>
      exact ⟨fun q hq ha hd => staged_mono w _ _ (fun _ h => h) (fun _ h => h)
        (user_case _ (by simp) q hq ha hd),
        fun r hr ha hc => staged_mono w _ _ (fun _ h => h) (fun _ h => h) (hre r hr ha hc)⟩
    | exampleClick =>
      exact ⟨fun q hq ha hd => staged_mono w _ _ (fun _ h => h) (fun _ h => h)
        (user_case _ (by simp) q hq ha hd),
        fun r hr ha hc => staged_mono w _ _ (fun _ h => h) (fun _ h => h) (hre r hr ha hc)⟩
    | runEventTypes =>
      exact ⟨fun q hq ha hd => staged_mono w _ _ (fun _ h => h) (fun _ h => h)
        (user_case _ (by simp) q hq ha hd),
        fun r hr ha hc => staged_mono w _ _ (fun _ h => h) (fun _ h => h) (hre r hr ha hc)⟩
    | runCallstackStats =>
      exact ⟨fun q hq ha hd => staged_mono w _ _ (fun _ h => h) (fun _ h => h)
        (user_case _ (by simp) q hq ha hd),
        fun r hr ha hc => staged_mono w _ _ (fun _ h => h) (fun _ h => h) (hre r hr ha hc)⟩
    | runFlamegraph =>
      exact ⟨fun q hq ha hd => staged_mono w _ _ (fun _ h => h) (fun _ h => h)
        (user_case _ (by simp) q hq ha hd),
        fun r hr ha hc => staged_mono w _ _ (fun _ h => h) (fun _ h => h) (hre r hr ha hc)⟩
    | readsDone k =>
      exact ⟨fun q hq ha hd => staged_mono w _ _ (fun _ h => h) (fun _ h => h)
        (user_case _ (by simp) q hq ha hd),
        fun r hr ha hc => staged_mono w _ _ (fun _ h => h) (fun _ h => h) (hre r hr ha hc)⟩
    | readsFailed k =>
      exact ⟨fun q hq ha hd => staged_mono w _ _ (fun _ h => h) (fun _ h => h)
        (user_case _ (by simp) q hq ha hd),
        fun r hr ha hc => staged_mono w _ _ (fun _ h => h) (fun _ h => h) (hre r hr ha hc)⟩
    | timeout k =>
      exact ⟨fun q hq ha hd => staged_mono w _ _ (fun _ h => h) (fun _ h => h)
        (user_case _ (by simp) q hq ha hd),
        fun r hr ha hc => staged_mono w _ _ (fun _ h => h) (fun _ h => h) (hre r hr ha hc)⟩
    | selectChange id i =>
      exact ⟨fun q hq ha hd => staged_mono w _ _ (fun _ h => h) (fun _ h => h)
        (user_case _ (by simp) q hq ha hd),
        fun r hr ha hc => staged_mono w _ _ (fun _ h => h) (fun _ h => h) (hre r hr ha hc)⟩
  | work t0 t1 =>
    simp only [World.next]
    cases hinbox : w.inbox with
    | nil =>
      simp only []
      exact ⟨by rw [hinbox]; simp, hre⟩
    | cons m rest =>
      simp only []
      have grow : ∀ d, Staged w d → Staged
          { w with
            fs := (onmessage H w.fs t0 t1 m).fs
            inbox := rest
            replies := w.replies ++ (onmessage H w.fs t0 t1 m).posted
            handled := w.handled ++ [m]
            writtenLog := w.writtenLog ++ (onmessage H w.fs t0 t1 m).written } d :=
        fun d hs => staged_mono w _ d (fun _ h => List.mem_append_left _ h)
          (fun _ h => List.mem_append_left _ h) hs
      refine ⟨?_, ?_⟩
      · intro q hq ha hd
        exact grow _ (hin q (by rw [hinbox]; exact List.mem_cons_of_mem _ hq) ha hd)
      · intro r hr ha hc
        rcases List.mem_append.mp hr with h | h
        · exact grow _ (hre r h ha hc)
        · have hma : m.action = .WRITE_FILES := by
            rw [← onmessage_reply_action H w.fs t0 t1 m r h]
            exact ha
          obtain ⟨_, _, _, hdir, hfiles⟩ := worker_write_files_reply H w.fs t0 t1 m hma r h
          exact ⟨m, List.mem_append_right _ (List.mem_singleton.mpr rfl), hma, hdir.symm,
            _, Option.mem_def.mpr hfiles, fun f hf => List.mem_append_right _ hf⟩
  | deliver =>
    simp only [World.next]
    cases hrep : w.replies with
    | nil =>
      simp only []
      exact ⟨hin, by rw [hrep]; simp⟩
    | cons r rest =>
      simp only []
      refine ⟨?_, ?_⟩
      · intro q hq ha hd
        apply staged_mono w _ _ (fun _ h => h) (fun _ h => h)
        rcases List.mem_append.mp hq with h | h
        · exact hin q h ha hd
        · rcases newPosts_step strToNum w.page (.message r) q h ha with ⟨hex, _⟩ | ⟨r2, hr2, ha2, hc2, hd2⟩
          · exact absurd hex (by simp)
          · have hrr : r = r2 := by
              injection hr2
            rw [← hd2, ← hrr]
            exact hre r (by rw [hrep]; exact List.mem_cons_self _ _)
              (by rw [hrr]; exact ha2) (by rw [hrr]; exact hc2)
      · intro r2 hr2 ha hc
        exact staged_mono w _ _ (fun _ h => h) (fun _ h => h)
          (hre r2 (by rw [hrep]; exact List.mem_cons_of_mem _ hr2) ha hc)

theorem staged_invariant_run {σ : Type} (strToNum : String → JSNum) (H : Host σ Res)
    (moves : List Move) : ∀ w : World σ,
    (∀ q ∈ w.inbox, q.action = .GET_TRACE_INFO → q.dir ≠ some exampleTrace → Staged w q.dir) →
    (∀ r ∈ w.replies, r.action = .WRITE_FILES → r.rc = some 0 → Staged w r.dir) →
    ∀ q ∈ (moves.foldl (World.next strToNum H) w).inbox, q.action = .GET_TRACE_INFO →
      q.dir ≠ some exampleTrace → Staged (moves.foldl (World.next strToNum H) w) q.dir := by
  induction moves with
  | nil => intro w hin _; exact hin
  | cons mv moves ih =>
    intro w hin hre
    rw [List.foldl_cons]
    obtain ⟨h1, h2⟩ := staged_invariant_next strToNum H w mv hin hre
    exact ih _ h1 h2

theorem sample_dirChange :
    step (fun _ => none) samplePage (.dirChange traceFiles) =
      { samplePage with
        dirInputFiles := traceFiles
        isExampleLoaded := false
        traceInfoStatus := ""
        traceInfoAttributes := []
        traceInfo := none
        eventChartDisplay := "none"
        runEventTypesDisabled := true
        runCallstackStatsDisabled := true
        runFlamegraphDisabled := true
        callstackParamsOpacity := 6 / 10
        entrySelect := { disabled := true, childNodes := [.opt { value := "", innerHTML := "--", selected := true }] }
        exitSelect := { disabled := true, childNodes := [.opt { value := "", innerHTML := "--", selected := true }] }
        entryTrackSelect := { disabled := true, childNodes := [.opt { value := "", innerHTML := "--", selected := true }] }
        exitTrackSelect := { disabled := true, childNodes := [.opt { value := "", innerHTML := "--", selected := true }] }
        entryLabelSelect := { disabled := true, childNodes := [.opt { value := "", innerHTML := "--", selected := true }] }
        exitLabelSelect := { disabled := true, childNodes := [.opt { value := "", innerHTML := "--", selected := true }] }
        eventChart := none
        pendingDumps := [{ dir := "trace", files := traceFiles }] } := by
  simp only [step, dirInputChange]
  rw [onNewTraceLoadedPre_eq _ _ _ _ _ _ _ _ _ _ _ _ _ rfl rfl rfl rfl rfl rfl]
  rfl

theorem sample_run_stages_then_queries :
    (sampleMoves.foldl (World.next (fun _ => none) (sampleHost none)) sampleWorld).inbox
      = [{ action := .GET_TRACE_INFO, dir := some "trace" }] ∧
    (sampleMoves.foldl (World.next (fun _ => none) (sampleHost none)) sampleWorld).handled
      = [{ action := .WRITE_FILES, dir := some "trace",
           files := some [{ file := "trace/metadata", data := [1, 2] }] }] ∧
    (sampleMoves.foldl (World.next (fun _ => none) (sampleHost none)) sampleWorld).writtenLog
      = [{ file := "trace/metadata", data := [1, 2] }] := by
  simp only [sampleMoves, List.foldl, World.next, sampleWorld]
  rw [sample_dirChange]
  refine ⟨?_, ?_, ?_⟩ <;> rfl

/-- C6 (amended): started with empty queues, the worker never has a
trace-info query in its inbox for a directory other than the example trace
unless it has handled a `WRITE_FILES` request for that directory and written
every file of it.  The page posts a trace-info query only in reaction to a
`WRITE_FILES` reply with `rc = 0`, for the directory of that reply, or on a
click of the example button, for the example trace; the worker posts its
`WRITE_FILES` reply only when every file of the message has been written, and
the reply carries the message's directory; and after a directory change the
three run buttons are disabled and stay so over every sequence of events
without a trace-info reply with `rc = 0`. -/
theorem trace_info_after_staging {σ : Type} (strToNum : String → JSNum) (H : Host σ Res)
    (w : World σ) (moves : List Move) (evs : List Event)
    (hin : w.inbox = []) (hre : w.replies = [])
    (hevs : ∀ e ∈ evs, isTraceInfoSuccess e = false) :
    (∀ q ∈ (moves.foldl (World.next strToNum H) w).inbox, q.action = .GET_TRACE_INFO →
      q.dir ≠ some exampleTrace → Staged (moves.foldl (World.next strToNum H) w) q.dir) ∧
    (∀ (p : Page) (ev : Event), ∃ new, (step strToNum p ev).posted = p.posted ++ new ∧
      ∀ q ∈ new, q.action = .GET_TRACE_INFO →
        (ev = .exampleClick ∧ q.dir = some exampleTrace) ∨
        ∃ r, ev = .message r ∧ r.action = .WRITE_FILES ∧ r.rc = some 0 ∧ r.dir = q.dir) ∧
    (∀ (fs : σ) (t0 t1 : ℚ) (m : Request), m.action = .WRITE_FILES →
      ∀ r ∈ (onmessage H fs t0 t1 m).posted,
        (onmessage H fs t0 t1 m).posted = [r] ∧
        r.action = .WRITE_FILES ∧ r.rc = some 0 ∧ r.dir = m.dir ∧
        m.files = some (onmessage H fs t0 t1 m).written) ∧
    (∀ (p : Page) (files : List InputFile),
      (evs.foldl (step strToNum) (step strToNum p (.dirChange files))).runEventTypesDisabled
        = true ∧
      (evs.foldl (step strToNum) (step strToNum p (.dirChange files))).runCallstackStatsDisabled
        = true ∧
      (evs.foldl (step strToNum) (step strToNum p (.dirChange files))).runFlamegraphDisabled
        = true) := by
  refine ⟨?_, step_posted strToNum, fun fs t0 t1 m hm => worker_write_files_reply H fs t0 t1 m hm,
    ?_⟩
  · apply staged_invariant_run strToNum H moves w
    · rw [hin]
      simp
    · rw [hre]
      simp
  · intro p files
    have hw := awaiting_run strToNum evs _ (awaiting_after_dirChange strToNum p files) hevs
    exact ⟨hw.1.2.1, hw.1.2.2.1, hw.1.2.2.2⟩

/-- C6 (amended), at the sample world, the sample run of the two scripts and
the sample run of the page. -/
theorem trace_info_after_staging_witness :
    (∀ q ∈ (sampleMoves.foldl (World.next (fun _ => none) (sampleHost none)) sampleWorld).inbox,
      q.action = .GET_TRACE_INFO → q.dir ≠ some exampleTrace →
      Staged (sampleMoves.foldl (World.next (fun _ => none) (sampleHost none)) sampleWorld)
        q.dir) ∧
    (sampleEvents.foldl (step fun _ => none)
      (step (fun _ => none) samplePage (.dirChange traceFiles))).runEventTypesDisabled = true :=
  ⟨(trace_info_after_staging (fun _ => none) (sampleHost none) sampleWorld sampleMoves
      sampleEvents rfl rfl
      (by
        intro e he
        simp only [sampleEvents, List.mem_cons, List.mem_singleton, List.not_mem_nil,
          or_false] at he
        rcases he with h | h | h | h <;> subst h <;> rfl)).1,
   ((trace_info_after_staging (fun _ => none) (sampleHost none) sampleWorld sampleMoves
      sampleEvents rfl rfl
      (by
        intro e he
        simp only [sampleEvents, List.mem_cons, List.mem_singleton, List.not_mem_nil,
          or_false] at he
        rcases he with h | h | h | h <;> subst h <;> rfl)).2.2.2 samplePage traceFiles).1⟩

/-! ### Directories and staging -/

theorem split_cons_form (sep : Char) (l : List Char) :
    ∃ piece pieces, split sep l = piece :: pieces ∧
      piece = l.takeWhile (fun c => decide (c ≠ sep)) ∧ pieces.length = l.count sep := by
  induction l with
  | nil => exact ⟨[], [], rfl, rfl, rfl⟩
  | cons c cs ih =>
    obtain ⟨piece, pieces, hs, hp, hl⟩ := ih
    by_cases hc : c = sep
    · refine ⟨[], split sep cs, by simp [split, hc], by simp [hc], ?_⟩
      rw [hs, hc, List.count_cons_self, List.length_cons, hl]
    · refine ⟨c :: piece, pieces, by simp [split, hc, hs], by simp [hc, hp], ?_⟩
      rw [hl, List.count_cons_of_ne (fun h => hc h.symm)]

theorem split_length (sep : Char) (l : List Char) :
    (split sep l).length = l.count sep + 1 := by
  obtain ⟨piece, pieces, hs, _, hl⟩ := split_cons_form sep l
  rw [hs, List.length_cons, hl]

theorem pathToDir_data (path : String) :
    (pathToDir path).data = path.data.takeWhile (fun c => decide (c ≠ '/')) := by
  obtain ⟨piece, pieces, hs, hp, _⟩ := split_cons_form '/' path.data
  simp [pathToDir, hs, hp]

theorem staged_filter_iff (file : InputFile) :
    (((split '/' file.webkitRelativePath.data).length : Int) - 1 == 1) = true ↔
      slashes file.webkitRelativePath = 1 := by
  rw [split_length]
  simp only [slashes, beq_iff_eq]
  constructor
  · intro h
    omega
  · intro h
    omega

theorem dumpFilesToFS_files (dir : String) (fileList : List InputFile) :
    (dumpFilesToFS dir fileList).files =
      some ((fileList.filter fun file => decide (slashes file.webkitRelativePath = 1)).map
        fun file => { file := file.webkitRelativePath, data := file.data }) := by
  have hf : (fileList.filter fun file =>
      ((split '/' file.webkitRelativePath.data).length : Int) - 1 == 1)
      = fileList.filter fun file => decide (slashes file.webkitRelativePath = 1) := by
    apply List.filter_congr
    intro file _
    rw [Bool.eq_iff_iff, staged_filter_iff]
    simp
  simp only [dumpFilesToFS, hf, List.map_map]
  rfl

theorem path_decompose (path : String) :
    path = pathToDir path ∨ ∃ rest : String, path = pathToDir path ++ "/" ++ rest := by
  have hsplit := List.takeWhile_append_dropWhile (fun c => decide (c ≠ '/')) path.data
  cases hd : path.data.dropWhile (fun c => decide (c ≠ '/')) with
  | nil =>
    left
    apply String.ext
    rw [pathToDir_data]
    rw [hd, List.append_nil] at hsplit
    exact hsplit.symm
  | cons c rest =>
    right
    have hc : c = '/' := by
      have h := List.head_dropWhile_not (fun c => decide (c ≠ '/')) path.data
        (by rw [hd]; simp)
      simp only [hd, List.head_cons, decide_eq_false_iff_not, not_not] at h
      simpa using h
    refine ⟨String.mk rest, ?_⟩
    have h2 : path.data
        = path.data.takeWhile (fun c => decide (c ≠ '/')) ++ ('/' :: rest) := by
      subst hc
      rw [← hd]
      exact hsplit.symm
    apply String.ext
    rw [String.data_append, String.data_append, pathToDir_data]
    simpa using h2

theorem pathToDir_no_slash (path : String) : '/' ∉ (pathToDir path).data := by
  rw [pathToDir_data]
  intro h
  have := List.mem_takeWhile_imp h
  simp at this

theorem pathToDir_of_no_slash (path : String) (h : slashes path = 0) :
    pathToDir path = path := by
  apply String.ext
  rw [pathToDir_data, List.takeWhile_eq_self_iff]
  intro c hc
  have hn : '/' ∉ path.data := List.count_eq_zero.mp h
  simp only [decide_eq_true_eq]
  intro hc2
  exact hn (hc2 ▸ hc)

theorem one_slash_decompose (path : String) (h : slashes path = 1) :
    ∃ name : String, '/' ∉ name.data ∧ path = pathToDir path ++ "/" ++ name := by
  have h0 : (pathToDir path).data.count '/' = 0 :=
    List.count_eq_zero.mpr (pathToDir_no_slash path)
  rcases path_decompose path with hp | ⟨rest, hp⟩
  · have hc : slashes path = 0 := by
      rw [slashes, hp]
      exact h0
    omega
  · refine ⟨rest, ?_, hp⟩
    have hc := congrArg slashes hp
    rw [h] at hc
    simp only [slashes, String.data_append, List.count_append, h0] at hc
    have h1 : "/".data.count '/' = 1 := by decide
    rw [h1] at hc
    exact List.count_eq_zero.mp (by omega)

theorem staged_paths_one_slash (dir : String) (fileList : List InputFile) :
    ∀ s ∈ (dumpFilesToFS dir fileList).files.getD [], slashes s.file = 1 := by
  intro s hs
  rw [dumpFilesToFS_files] at hs
  simp only [Option.getD_some, List.mem_map, List.mem_filter, decide_eq_true_eq] at hs
  obtain ⟨file, ⟨_, h1⟩, rfl⟩ := hs
  exact h1

/-- C11: the message built by `dumpFilesToFS` is a `WRITE_FILES` message for
`dir` whose files are exactly the selected files with one `/` in their
relative path, in input order, each with its path and data unchanged; every
staged path has exactly one `/`, so no file of a subdirectory is staged. -/
theorem dumpFilesToFS_stages_top_level (dir : String) (fileList : List InputFile) :
    (dumpFilesToFS dir fileList).action = .WRITE_FILES ∧
    (dumpFilesToFS dir fileList).dir = some dir ∧
    (dumpFilesToFS dir fileList).files =
      some ((fileList.filter fun file => decide (slashes file.webkitRelativePath = 1)).map
        fun file => { file := file.webkitRelativePath, data := file.data }) ∧
    (∀ s ∈ (dumpFilesToFS dir fileList).files.getD [], slashes s.file = 1) ∧
    (∀ file ∈ fileList, slashes file.webkitRelativePath ≠ 1 →
      ∀ s ∈ (dumpFilesToFS dir fileList).files.getD [], s.file ≠ file.webkitRelativePath) := by
  refine ⟨rfl, rfl, dumpFilesToFS_files dir fileList, staged_paths_one_slash dir fileList, ?_⟩
  intro file _ hne s hs heq
  exact hne (heq ▸ staged_paths_one_slash dir fileList s hs)

/-- C11, at two files of the directory `trace`, one of them in a
subdirectory: only the file directly inside `trace` is staged. -/
theorem dumpFilesToFS_stages_top_level_witness :
    (dumpFilesToFS "trace" traceFiles).files
      = some [{ file := "trace/metadata", data := [1, 2] }] :=
  (dumpFilesToFS_stages_top_level "trace" traceFiles).2.2.1.trans (by decide)

/-- C12: `pathToDir path` is the part of `path` before its first `/` (all of
`path` when it has none): it contains no `/`, and `path` is it or it followed
by `/` and a rest; a path with exactly one `/`, as every staged path is, is
`pathToDir path`, then `/`, then a name without `/`. -/
theorem pathToDir_is_first_segment (path dir : String) (fileList : List InputFile) :
    (pathToDir path).data = path.data.takeWhile (fun c => decide (c ≠ '/')) ∧
    '/' ∉ (pathToDir path).data ∧
    (path = pathToDir path ∨ ∃ rest : String, path = pathToDir path ++ "/" ++ rest) ∧
    (slashes path = 0 → pathToDir path = path) ∧
    (slashes path = 1 →
      ∃ name : String, '/' ∉ name.data ∧ path = pathToDir path ++ "/" ++ name) ∧
    (∀ s ∈ (dumpFilesToFS dir fileList).files.getD [],
      ∃ name : String, '/' ∉ name.data ∧ s.file = pathToDir s.file ++ "/" ++ name) :=
  ⟨pathToDir_data path, pathToDir_no_slash path, path_decompose path,
    pathToDir_of_no_slash path, one_slash_decompose path,
    fun s hs => one_slash_decompose s.file (staged_paths_one_slash dir fileList s hs)⟩

/-- C12, at the path `trace/metadata`: the directory is `trace` and the rest
is a name without `/`. -/
theorem pathToDir_is_first_segment_witness :
    pathToDir "trace/metadata" = "trace" ∧
    ∃ name : String, '/' ∉ name.data ∧
      "trace/metadata" = pathToDir "trace/metadata" ++ "/" ++ name :=
  ⟨by decide,
   (pathToDir_is_first_segment "trace/metadata" "trace" traceFiles).2.2.2.2.1 (by decide)⟩

end Actf
